import Mathlib

/-!
# Verification model of the LLMChatBot web scraper (`scraper.go`)

This file shallow-embeds the crawler/cache subsystem of the repository
(`scraper.go`, helped by `pdf_extractor.go` / `file_parser.go` for the
link-extension predicates) and proves or refutes the frozen claims about it.

Modelling conventions:
* Go strings are byte strings; the model works at `Char` level and is
  byte-accurate for ASCII inputs (all concrete inputs used below are ASCII).
* `net/url` (`url.Parse`, `URL.String`, query `Values`, escaping) is modelled
  in the `NetUrl` namespace, translated from the Go standard library source,
  because `normalizeURL`, `generateSafeDirectoryName`, `isValidPDFURL` and
  `resolveURL` call into it.  The IPv6 zone (`%25` inside brackets) branch of
  `parseHost` is not modelled.
* `crypto/sha256` and `crypto/md5` are implemented over lists of byte values
  (`Nat`s below 256), with `encoding/hex` lower-case output.
* Mutable `WebScraper` state is threaded explicitly (`ScraperState`); the
  network is a function `String → Option String` from URL to raw body
  (`none` = transport error or non-200 response).
-/

/-! ## Go string helpers (`strings` package, ASCII-accurate) -/

/-- Model of `strings.ToLower` restricted to ASCII case mapping
(Go applies full Unicode case mapping; they agree on ASCII). -/
def asciiLowerChar (c : Char) : Char :=
  if 'A' ≤ c ∧ c ≤ 'Z' then Char.ofNat (c.toNat + 32) else c

/-- Model of `strings.ToLower`. -/
def goToLower (s : String) : String := ⟨s.data.map asciiLowerChar⟩

/-- Contiguous-infix test on character lists. -/
def infixAt (sub : List Char) : List Char → Bool
  | [] => sub.isEmpty
  | c :: rest => List.isPrefixOf sub (c :: rest) || infixAt sub rest

/-- Model of `strings.Contains s sub` (substring test). -/
def goContains (s sub : String) : Bool := infixAt sub.data s.data

/-- Model of `strings.HasPrefix` (computable prefix test on the characters). -/
def strStarts (s pre : String) : Bool := List.isPrefixOf pre.data s.data

/-- Model of `strings.HasSuffix`. -/
def strEnds (s suf : String) : Bool := List.isSuffixOf suf.data s.data

/-- Model of `strings.TrimPrefix`. -/
def goTrimPre (pre s : String) : String :=
  if strStarts s pre then ⟨s.data.drop pre.data.length⟩ else s

/-- Model of `strings.TrimSuffix s suf` (removes one occurrence of the suffix). -/
def goTrimSuf (s suf : String) : String :=
  if strEnds s suf then ⟨s.data.take (s.data.length - suf.data.length)⟩ else s

/-- ASCII whitespace (the ASCII part of Go `strings.TrimSpace`). -/
def isSpaceChar (c : Char) : Bool :=
  c = ' ' ∨ c = Char.ofNat 9 ∨ c = Char.ofNat 10 ∨ c = Char.ofNat 11 ∨
    c = Char.ofNat 12 ∨ c = Char.ofNat 13

/-- Model of `strings.TrimSpace`. -/
def goTrim (s : String) : String :=
  ⟨((s.data.dropWhile isSpaceChar).reverse.dropWhile isSpaceChar).reverse⟩

/-- Split a character list at the first occurrence of `sep`; the separator is
dropped.  `none` in the second component means the separator was absent
(Go's `strings.Cut`). -/
def splitFirst (sep : Char) : List Char → List Char × Option (List Char)
  | [] => ([], none)
  | c :: rest =>
    if c = sep then ([], some rest)
    else
      let p := splitFirst sep rest
      (c :: p.1, p.2)

/-- Split a character list at the first `'/'`, keeping the slash in the second
component (Go's authority/path split in `url.parse`). -/
def splitAtSlash : List Char → List Char × List Char
  | [] => ([], [])
  | c :: rest =>
    if c = '/' then ([], c :: rest)
    else
      let p := splitAtSlash rest
      (c :: p.1, p.2)

/-- Index of the last occurrence of `c` (Go's `strings.LastIndex` for one
character), counted from the front. -/
def lastIdxOf (c : Char) (l : List Char) : Option Nat :=
  match l with
  | [] => none
  | x :: rest =>
    match lastIdxOf c rest with
    | some i => some (i + 1)
    | none => if x = c then some 0 else none

/-- Lexicographic order on character lists (Go compares strings by bytes;
UTF-8 byte order agrees with code-point order). -/
def charListLe : List Char → List Char → Bool
  | [], _ => true
  | _ :: _, [] => false
  | a :: as_, b :: bs =>
    if a = b then charListLe as_ bs
    else decide (a < b)

/-- String order used by `sort.Strings`. -/
def strLe (a b : String) : Bool := charListLe a.data b.data

/-- Insertion into a list sorted by `strLe`. -/
def insortStr (a : String) : List String → List String
  | [] => [a]
  | b :: rest => if strLe a b then a :: b :: rest else b :: insortStr a rest

/-- Sort a list of strings by `strLe` (model of `sort.Strings`). -/
def sortStrings : List String → List String
  | [] => []
  | a :: rest => insortStr a (sortStrings rest)

/-! ## Model of `net/url` -/

namespace NetUrl

/-- The escaping modes of `net/url` (`encoding` in the Go source). -/
inductive Mode
  | path
  | pathSegment
  | host
  | zone
  | userPassword
  | queryComponent
  | fragment
deriving DecidableEq, Repr

/-- single-quote character (written via its code point to keep literals plain) -/
def squote : Char := Char.ofNat 39

/-- double-quote character -/
def dquote : Char := Char.ofNat 34

def isAsciiUpper (c : Char) : Bool := 'A' ≤ c ∧ c ≤ 'Z'

def isAsciiLower (c : Char) : Bool := 'a' ≤ c ∧ c ≤ 'z'

def isAsciiDigit (c : Char) : Bool := '0' ≤ c ∧ c ≤ '9'

def isAsciiAlpha (c : Char) : Bool := isAsciiUpper c || isAsciiLower c

def isAlphaNum (c : Char) : Bool := isAsciiAlpha c || isAsciiDigit c

/-- Go `net/url.shouldEscape`. -/
def shouldEscape (c : Char) (mode : Mode) : Bool :=
  if isAlphaNum c then false
  else if (mode = Mode.host ∨ mode = Mode.zone) ∧
      ['!', '$', '&', squote, '(', ')', '*', '+', ',', ';', '=', ':',
        '[', ']', '<', '>', dquote].contains c then false
  else if ['-', '_', '.', '~'].contains c then false
  else if ['$', '&', '+', ',', '/', ':', ';', '=', '?', '@'].contains c then
    match mode with
    | Mode.path => c = '?'
    | Mode.pathSegment => c = '/' ∨ c = ';' ∨ c = ',' ∨ c = '?'
    | Mode.userPassword => c = '@' ∨ c = '/' ∨ c = '?' ∨ c = ':'
    | Mode.queryComponent => true
    | Mode.fragment => false
    | _ => true
  else if mode = Mode.fragment ∧ ['!', '(', ')', '*'].contains c then false
  else true

def isHexDigit (c : Char) : Bool :=
  isAsciiDigit c || ('a' ≤ c ∧ c ≤ 'f') || ('A' ≤ c ∧ c ≤ 'F')

def unhex (c : Char) : Nat :=
  if isAsciiDigit c then c.toNat - 48
  else if 'a' ≤ c ∧ c ≤ 'f' then c.toNat - 87
  else if 'A' ≤ c ∧ c ≤ 'F' then c.toNat - 55
  else 0

/-- Upper-case hex digit (Go `"0123456789ABCDEF"[n]`, used by `escape`). -/
def hexUpper (n : Nat) : Char :=
  if n < 10 then Char.ofNat (48 + n) else Char.ofNat (55 + n)

/-- Go `net/url.escape` (the `' '→'+'` rule applies only in query mode). -/
def escape (s : List Char) (mode : Mode) : List Char :=
  s.flatMap fun c =>
    if c = ' ' ∧ mode = Mode.queryComponent then ['+']
    else if shouldEscape c mode then
      ['%', hexUpper (c.toNat % 256 / 16), hexUpper (c.toNat % 16)]
    else [c]

/-- Go `net/url.unescape`; `none` models the `EscapeError`/`InvalidHostError`
returns. -/
def unescape (mode : Mode) : List Char → Option (List Char)
  | [] => some []
  | c :: rest =>
    if c = '%' then
      match rest with
      | h1 :: h2 :: rest2 =>
        if isHexDigit h1 ∧ isHexDigit h2 then
          if mode = Mode.host ∧ unhex h1 < 8 ∧ ¬(h1 = '2' ∧ h2 = '5') then
            none
          else
            match unescape mode rest2 with
            | none => none
            | some tl => some (Char.ofNat (unhex h1 * 16 + unhex h2) :: tl)
        else none
      | _ => none
    else if c = '+' then
      match unescape mode rest with
      | none => none
      | some tl =>
        some ((if mode = Mode.queryComponent then ' ' else '+') :: tl)
    else if (mode = Mode.host ∨ mode = Mode.zone) ∧ c.toNat < 128 ∧
        shouldEscape c mode then
      none
    else
      match unescape mode rest with
      | none => none
      | some tl => some (c :: tl)

/-- Go `net/url.validEncoded`. -/
def validEncoded (s : List Char) (mode : Mode) : Bool :=
  s.all fun c =>
    if ['!', '$', '&', squote, '(', ')', '*', '+', ',', ';', '=', ':', '@'].contains c then true
    else if c = '[' ∨ c = ']' then true
    else if c = '%' then true
    else ¬shouldEscape c mode

/-- Go `net/url.validOptionalPort`. -/
def validOptionalPort : List Char → Bool
  | [] => true
  | ':' :: rest => rest.all isAsciiDigit
  | _ => false

/-- Go `net/url.validUserinfo` character test. -/
def validUserinfoChar (c : Char) : Bool :=
  isAlphaNum c ||
    ['-', '.', '_', ':', '~', '!', '$', '&', squote, '(', ')', '*', '+', ',',
      ';', '=', '%', '@'].contains c

/-- Control bytes rejected by `url.Parse` (`stringContainsCTLByte`). -/
def isCtlChar (c : Char) : Bool := c.toNat < 32 || c.toNat = 127

/-- The parsed `url.URL` structure.  `opq` is Go's `URL.Opaque` (renamed);
`user` models `*Userinfo` as `(username, optional password)`. -/
structure URL where
  scheme : String := ""
  opq : String := ""
  user : Option (String × Option String) := none
  host : String := ""
  path : String := ""
  rawPath : String := ""
  omitHost : Bool := false
  forceQuery : Bool := false
  rawQuery : String := ""
  fragment : String := ""
  rawFragment : String := ""
deriving DecidableEq, Repr, Inhabited

/-- Go `net/url.getScheme`: returns `(scheme, rest)`; `none` is the
"missing protocol scheme" error.  `orig` keeps the whole input for the
no-scheme outcomes. -/
def getSchemeAux (orig : List Char) (acc : List Char) :
    List Char → Option (List Char × List Char)
  | [] => some ([], orig)
  | c :: rest =>
    if isAsciiAlpha c then getSchemeAux orig (c :: acc) rest
    else if isAsciiDigit c ∨ c = '+' ∨ c = '-' ∨ c = '.' then
      if acc.isEmpty then some ([], orig) else getSchemeAux orig (c :: acc) rest
    else if c = ':' then
      if acc.isEmpty then none else some (acc.reverse, rest)
    else some ([], orig)

def getScheme (s : List Char) : Option (List Char × List Char) :=
  getSchemeAux s [] s

/-- Go `URL.setPath`: returns `(Path, RawPath)`. -/
def setPath (raw : List Char) : Option (List Char × List Char) :=
  match unescape Mode.path raw with
  | none => none
  | some p => some (p, if escape p Mode.path = raw then [] else raw)

/-- Go `net/url.parseHost`.  The IPv6 `%25` zone sub-case is not modelled
(no claim involves IPv6 literals). -/
def parseHost (host : List Char) : Option (List Char) :=
  if host.head? = some '[' then
    match lastIdxOf ']' host with
    | none => none
    | some i =>
      if validOptionalPort (host.drop (i + 1)) then unescape Mode.host host
      else none
  else
    match lastIdxOf ':' host with
    | some i =>
      if validOptionalPort (host.drop i) then unescape Mode.host host
      else none
    | none => unescape Mode.host host

/-- Go `net/url.parseAuthority`: returns `(user, host)`. -/
def parseAuthority (authority : List Char) :
    Option (Option (String × Option String) × List Char) :=
  match lastIdxOf '@' authority with
  | none =>
    match parseHost authority with
    | none => none
    | some h => some (none, h)
  | some i =>
    match parseHost (authority.drop (i + 1)) with
    | none => none
    | some h =>
      let userinfo := authority.take i
      if ¬userinfo.all validUserinfoChar then none
      else if ¬userinfo.contains ':' then
        match unescape Mode.userPassword userinfo with
        | none => none
        | some u => some (some (⟨u⟩, none), h)
      else
        let p := splitFirst ':' userinfo
        match unescape Mode.userPassword p.1,
            unescape Mode.userPassword (p.2.getD []) with
        | some u, some pw => some (some (⟨u⟩, some ⟨pw⟩), h)
        | _, _ => none

/-- Go `net/url.parse` with `viaRequest = false` (everything of `url.Parse`
except the fragment split). -/
def parseMain (rawURL : List Char) : Option URL :=
  if rawURL.any isCtlChar then none
  else if rawURL = ['*'] then some { path := "*" }
  else
    match getScheme rawURL with
    | none => none
    | some (schemeChars, rest0) =>
      let scheme : String := ⟨schemeChars.map asciiLowerChar⟩
      let fq :=
        rest0.getLast? = some '?' ∧ ¬(rest0.dropLast.contains '?')
      let rest1 := if fq then rest0.dropLast else (splitFirst '?' rest0).1
      let rawQuery : List Char :=
        if fq then [] else ((splitFirst '?' rest0).2.getD [])
      if ¬(rest1.head? = some '/') ∧ scheme ≠ "" then
        some { scheme := scheme, opq := ⟨rest1⟩, forceQuery := fq,
               rawQuery := ⟨rawQuery⟩ }
      else
        if ¬(rest1.head? = some '/') ∧ scheme = "" ∧
            ((splitFirst '/' rest1).1.contains ':') then
          none
        else
          let hasAuth :=
            (scheme ≠ "" ∨ ¬(rest1.take 3 = ['/', '/', '/'])) ∧
              rest1.take 2 = ['/', '/']
          if hasAuth then
            let afterSlashes := rest1.drop 2
            let sp := splitAtSlash afterSlashes
            match parseAuthority sp.1 with
            | none => none
            | some (user, host) =>
              match setPath sp.2 with
              | none => none
              | some (p, rp) =>
                some { scheme := scheme, user := user, host := ⟨host⟩,
                       path := ⟨p⟩, rawPath := ⟨rp⟩, forceQuery := fq,
                       rawQuery := ⟨rawQuery⟩ }
          else
            let omitH := scheme ≠ "" ∧ rest1.head? = some '/'
            match setPath rest1 with
            | none => none
            | some (p, rp) =>
              some { scheme := scheme, path := ⟨p⟩, rawPath := ⟨rp⟩,
                     omitHost := omitH, forceQuery := fq,
                     rawQuery := ⟨rawQuery⟩ }

/-- Go `url.Parse`: split the fragment, parse the rest, set the fragment. -/
def parse (rawURL : List Char) : Option URL :=
  let sp := splitFirst '#' rawURL
  match parseMain sp.1 with
  | none => none
  | some u =>
    match sp.2 with
    | none => some u
    | some frag =>
      if frag = [] then some u
      else
        match unescape Mode.fragment frag with
        | none => none
        | some f =>
          some { u with
            fragment := ⟨f⟩,
            rawFragment := if escape f Mode.fragment = frag then "" else ⟨frag⟩ }

/-- Go `URL.EscapedPath`. -/
def escapedPath (u : URL) : List Char :=
  if u.rawPath ≠ "" ∧ validEncoded u.rawPath.data Mode.path then
    match unescape Mode.path u.rawPath.data with
    | some p =>
      if p = u.path.data then u.rawPath.data
      else if u.path = "*" then ['*'] else escape u.path.data Mode.path
    | none => if u.path = "*" then ['*'] else escape u.path.data Mode.path
  else if u.path = "*" then ['*'] else escape u.path.data Mode.path

/-- Go `URL.EscapedFragment`. -/
def escapedFragment (u : URL) : List Char :=
  if u.rawFragment ≠ "" ∧ validEncoded u.rawFragment.data Mode.fragment then
    match unescape Mode.fragment u.rawFragment.data with
    | some f =>
      if f = u.fragment.data then u.rawFragment.data
      else escape u.fragment.data Mode.fragment
    | none => escape u.fragment.data Mode.fragment
  else escape u.fragment.data Mode.fragment

/-- Go `Userinfo.String`. -/
def userinfoString (u : String × Option String) : List Char :=
  escape u.1.data Mode.userPassword ++
    (match u.2 with
     | none => []
     | some pw => ':' :: escape pw.data Mode.userPassword)

/-- Go `URL.String`. -/
def urlString (u : URL) : List Char :=
  let schemePart : List Char :=
    if u.scheme ≠ "" then u.scheme.data ++ [':'] else []
  if u.opq ≠ "" then
    schemePart ++ u.opq.data ++
      (if u.forceQuery ∨ u.rawQuery ≠ "" then '?' :: u.rawQuery.data else []) ++
      (if u.fragment ≠ "" then '#' :: escapedFragment u else [])
  else
    let authorityPart : List Char :=
      if u.scheme ≠ "" ∨ u.host ≠ "" ∨ u.user.isSome then
        if u.omitHost ∧ u.host = "" ∧ u.user = none then []
        else
          (if u.host ≠ "" ∨ u.path ≠ "" ∨ u.user.isSome then ['/', '/'] else []) ++
            (match u.user with
             | none => []
             | some ui => userinfoString ui ++ ['@']) ++
            (if u.host ≠ "" then escape u.host.data Mode.host else [])
      else []
    let p := escapedPath u
    let slashFix : List Char :=
      if p ≠ [] ∧ ¬(p.head? = some '/') ∧ u.host ≠ "" then ['/'] else []
    let dotFix : List Char :=
      if schemePart = [] ∧ authorityPart = [] ∧ slashFix = [] ∧
          ((splitFirst '/' p).1.contains ':') then
        ['.', '/']
      else []
    schemePart ++ authorityPart ++ slashFix ++ dotFix ++ p ++
      (if u.forceQuery ∨ u.rawQuery ≠ "" then '?' :: u.rawQuery.data else []) ++
      (if u.fragment ≠ "" then '#' :: escapedFragment u else [])

/-! ### Query values (`url.Values`) -/

/-- `url.Values`, modelled as an association list with unique keys in first
insertion order (Go uses a map; `Encode` sorts the keys, `Del` removes one). -/
abbrev Values := List (String × List String)

/-- `m[key] = append(m[key], value)` for a `url.Values` map. -/
def addValue (m : Values) (k v : String) : Values :=
  match m with
  | [] => [(k, [v])]
  | (k0, vs) :: rest =>
    if k0 = k then (k0, vs ++ [v]) :: rest
    else (k0, vs) :: addValue rest k v

/-- Go `Values.Del`. -/
def delKey (m : Values) (k : String) : Values :=
  m.filter fun p => p.1 ≠ k

/-- Split a character list on a separator, keeping empty pieces
(`strings.Split` for non-empty input / Go's repeated `strings.Cut`). -/
def splitChAux (sep : Char) (acc : List Char) : List Char → List (List Char)
  | [] => [acc.reverse]
  | c :: rest =>
    if c = sep then acc.reverse :: splitChAux sep [] rest
    else splitChAux sep (c :: acc) rest

/-- Split a query string on `'&'` (each piece handled by `parseQuery`);
empty input yields no pieces, as in Go's `parseQuery` loop. -/
def splitAmp (l : List Char) : List (List Char) :=
  match l with
  | [] => []
  | _ => splitChAux '&' [] l

/-- Go `url.parseQuery` with the `Query()` error-swallowing behaviour: a pair
containing `';'` or an invalid escape is skipped, the rest is kept. -/
def parseQueryPiece (m : Values) (piece : List Char) : Values :=
  if piece.contains ';' then m
  else if piece = [] then m
  else
    let p := splitFirst '=' piece
    match unescape Mode.queryComponent p.1,
        unescape Mode.queryComponent (p.2.getD []) with
    | some k, some v => addValue m ⟨k⟩ ⟨v⟩
    | _, _ => m

def parseQuery (raw : List Char) : Values :=
  (splitAmp raw).foldl parseQueryPiece []

/-- Go `Values.Encode`: keys sorted, each value escaped with `QueryEscape`. -/
def encodeValues (m : Values) : List Char :=
  let keys := sortStrings (m.map Prod.fst)
  let pieces := keys.flatMap fun k =>
    match m.lookup k with
    | none => []
    | some vs =>
      vs.map fun v =>
        escape k.data Mode.queryComponent ++ '=' ::
          escape v.data Mode.queryComponent
  match pieces with
  | [] => []
  | p :: rest => p ++ rest.flatMap (fun q => '&' :: q)

/-! ### Reference resolution (`URL.ResolveReference`) -/

/-- Go `net/url.resolvePath` (RFC 3986 §5.2.4 dot-segment removal). -/
def resolvePath (base ref : List Char) : List Char :=
  let full : List Char :=
    if ref = [] then base
    else if ¬(ref.head? = some '/') then
      (match lastIdxOf '/' base with
       | some i => base.take (i + 1)
       | none => []) ++ ref
    else ref
  if h : full = [] then []
  else
    let src := splitChAux '/' [] full
    let dst := src.foldl
      (fun d e =>
        if e = ['.'] then d
        else if e = ['.', '.'] then d.dropLast
        else d ++ [e])
      ([] : List (List Char))
    let dst :=
      if src.getLast? = some ['.'] ∨ src.getLast? = some ['.', '.'] then
        dst ++ [[]]
      else dst
    let joined := List.intercalate ['/'] dst
    '/' :: (if joined.head? = some '/' then joined.drop 1 else joined)

/-- Go `URL.ResolveReference` (`setPath` failures leave the copied fields, as
in Go where the error return is discarded). -/
def resolveReference (u ref : URL) : URL :=
  let r := ref
  let r := if ref.scheme = "" then { r with scheme := u.scheme } else r
  if ref.scheme ≠ "" ∨ ref.host ≠ "" ∨ ref.user.isSome then
    match setPath (resolvePath (escapedPath ref) []) with
    | none => r
    | some (p, rp) => { r with path := ⟨p⟩, rawPath := ⟨rp⟩ }
  else if ref.opq ≠ "" then
    { r with user := none, host := "", path := "" }
  else
    let r :=
      if ref.path = "" ∧ ¬ref.forceQuery ∧ ref.rawQuery = "" then
        let r1 := { r with rawQuery := u.rawQuery }
        if ref.fragment = "" then
          { r1 with fragment := u.fragment, rawFragment := u.rawFragment }
        else r1
      else r
    let r := { r with host := u.host, user := u.user }
    match setPath (resolvePath (escapedPath u) (escapedPath ref)) with
    | none => r
    | some (p, rp) => { r with path := ⟨p⟩, rawPath := ⟨rp⟩ }

end NetUrl

/-- Split a string on a separator character (`strings.Split` for non-empty
input). -/
def splitCh (sep : Char) (s : String) : List String :=
  (NetUrl.splitChAux sep [] s.data).map fun l => ⟨l⟩

/-! ## `normalizeURL` (`scraper.go:312`) -/

/-- `scraper.go normalizeURL`: lower-case, parse, delete the tracking query
parameters, re-encode the query, drop the fragment, trim one trailing slash
from a path longer than one character; on parse failure fall back to the
lower-cased raw string (never errors). -/
def normalizeURL (targetUrl : String) : String :=
  let lowered := goToLower targetUrl
  match NetUrl.parse lowered.data with
  | none => lowered
  | some u0 =>
    let q0 := NetUrl.parseQuery u0.rawQuery.data
    let q1 := NetUrl.delKey q0 "utm_source"
    let q2 := NetUrl.delKey q1 "utm_medium"
    let q3 := NetUrl.delKey q2 "utm_campaign"
    let q4 := NetUrl.delKey q3 "utm_term"
    let q5 := NetUrl.delKey q4 "utm_content"
    let q6 := NetUrl.delKey q5 "ref"
    let q7 := NetUrl.delKey q6 "source"
    let u1 := { u0 with rawQuery := ⟨NetUrl.encodeValues q7⟩, fragment := "" }
    let u2 :=
      if u1.path.length > 1 ∧ u1.path.data.getLast? = some '/' then
        { u1 with path := ⟨u1.path.data.dropLast⟩ }
      else u1
    ⟨NetUrl.urlString u2⟩

/-! ## Byte-level hashing (`crypto/sha256`, `crypto/md5`, `encoding/hex`) -/

/-- `2^32`, the word modulus of both hash functions. -/
def pow32 : Nat := 4294967296

def rotl32 (x n : Nat) : Nat := ((x <<< n) ||| (x >>> (32 - n))) % pow32

def rotr32 (x n : Nat) : Nat := ((x >>> n) ||| (x <<< (32 - n))) % pow32

/-- UTF-8 encoding of one character (Go strings are UTF-8 byte strings). -/
def charUtf8 (c : Char) : List Nat :=
  let n := c.toNat
  if n < 128 then [n]
  else if n < 2048 then [192 + n / 64, 128 + n % 64]
  else if n < 65536 then [224 + n / 4096, 128 + n / 64 % 64, 128 + n % 64]
  else [240 + n / 262144, 128 + n / 4096 % 64, 128 + n / 64 % 64, 128 + n % 64]

/-- The bytes of a string (Go `[]byte(s)`). -/
def utf8Bytes (s : String) : List Nat := s.data.flatMap charUtf8

def hexLowerDigit (n : Nat) : Char :=
  if n < 10 then Char.ofNat (48 + n) else Char.ofNat (87 + n)

/-- `hex.EncodeToString` (lower-case hex). -/
def hexOfBytes (bs : List Nat) : String :=
  ⟨bs.flatMap fun b => [hexLowerDigit (b / 16), hexLowerDigit (b % 16)]⟩

/-- Split a byte list into 64-byte blocks (fuel-structural; `fuel = l.length`
always suffices because each step consumes at least one byte). -/
def chunksAux (fuel : Nat) (l : List Nat) : List (List Nat) :=
  match fuel, l with
  | _, [] => []
  | 0, _ => []
  | f + 1, l => l.take 64 :: chunksAux f (l.drop 64)

def chunks64 (l : List Nat) : List (List Nat) := chunksAux l.length l

/-- Big-endian 32-bit words from bytes. -/
def beWords : List Nat → List Nat
  | b0 :: b1 :: b2 :: b3 :: rest =>
    (b0 * 16777216 + b1 * 65536 + b2 * 256 + b3) :: beWords rest
  | _ => []

/-- Little-endian 32-bit words from bytes. -/
def leWords : List Nat → List Nat
  | b0 :: b1 :: b2 :: b3 :: rest =>
    (b0 + b1 * 256 + b2 * 65536 + b3 * 16777216) :: leWords rest
  | _ => []

def beBytes4 (n : Nat) : List Nat :=
  [n / 16777216 % 256, n / 65536 % 256, n / 256 % 256, n % 256]

def leBytes4 (n : Nat) : List Nat :=
  [n % 256, n / 256 % 256, n / 65536 % 256, n / 16777216 % 256]

def beBytes8 (n : Nat) : List Nat :=
  beBytes4 (n / pow32) ++ beBytes4 (n % pow32)

def leBytes8 (n : Nat) : List Nat :=
  leBytes4 (n % pow32) ++ leBytes4 (n / pow32)

/-- Number of zero bytes inserted after the `0x80` marker so that the padded
length is `≡ 56 (mod 64)`. -/
def padZeroCount (len : Nat) : Nat := (119 - len % 64) % 64

/-! ### SHA-256 -/

structure Hash8 where
  a : Nat
  b : Nat
  c : Nat
  d : Nat
  e : Nat
  f : Nat
  g : Nat
  hh : Nat
deriving Repr, DecidableEq

def sha256Init : Hash8 :=
  ⟨1779033703, 3144134277, 1013904242, 2773480762,
    1359893119, 2600822924, 528734635, 1541459225⟩

def sha256K : List Nat :=
  [1116352408, 1899447441, 3049323471, 3921009573,
   961987163, 1508970993, 2453635748, 2870763221,
   3624381080, 310598401, 607225278, 1426881987,
   1925078388, 2162078206, 2614888103, 3248222580,
   3835390401, 4022224774, 264347078, 604807628,
   770255983, 1249150122, 1555081692, 1996064986,
   2554220882, 2821834349, 2952996808, 3210313671,
   3336571891, 3584528711, 113926993, 338241895,
   666307205, 773529912, 1294757372, 1396182291,
   1695183700, 1986661051, 2177026350, 2456956037,
   2730485921, 2820302411, 3259730800, 3345764771,
   3516065817, 3600352804, 4094571909, 275423344,
   430227734, 506948616, 659060556, 883997877,
   958139571, 1322822218, 1537002063, 1747873779,
   1955562222, 2024104815, 2227730452, 2361852424,
   2428436474, 2756734187, 3204031479, 3329325298]

def ssig0 (x : Nat) : Nat := rotr32 x 7 ^^^ rotr32 x 18 ^^^ (x >>> 3)

def ssig1 (x : Nat) : Nat := rotr32 x 17 ^^^ rotr32 x 19 ^^^ (x >>> 10)

def bsig0 (x : Nat) : Nat := rotr32 x 2 ^^^ rotr32 x 13 ^^^ rotr32 x 22

def bsig1 (x : Nat) : Nat := rotr32 x 6 ^^^ rotr32 x 11 ^^^ rotr32 x 25

/-- Extend 16 message words to 64 (message schedule). -/
def sha256ExtendAux : Nat → List Nat → List Nat
  | 0, w => w
  | n + 1, w =>
    let L := w.length
    sha256ExtendAux n
      (w ++ [(ssig1 (w.getD (L - 2) 0) + w.getD (L - 7) 0 +
               ssig0 (w.getD (L - 15) 0) + w.getD (L - 16) 0) % pow32])

def sha256Round (s : Hash8) (kw : Nat × Nat) : Hash8 :=
  let ch := (s.e &&& s.f) ^^^ ((4294967295 - s.e) &&& s.g)
  let maj := (s.a &&& s.b) ^^^ (s.a &&& s.c) ^^^ (s.b &&& s.c)
  let t1 := (s.hh + bsig1 s.e + ch + kw.1 + kw.2) % pow32
  let t2 := (bsig0 s.a + maj) % pow32
  ⟨(t1 + t2) % pow32, s.a, s.b, s.c, (s.d + t1) % pow32, s.e, s.f, s.g⟩

def sha256Block (h : Hash8) (block : List Nat) : Hash8 :=
  let w := sha256ExtendAux 48 (beWords block)
  let s := (sha256K.zip w).foldl sha256Round h
  ⟨(h.a + s.a) % pow32, (h.b + s.b) % pow32, (h.c + s.c) % pow32,
    (h.d + s.d) % pow32, (h.e + s.e) % pow32, (h.f + s.f) % pow32,
    (h.g + s.g) % pow32, (h.hh + s.hh) % pow32⟩

/-- SHA-256 digest (32 bytes) of a byte list. -/
def sha256Bytes (msg : List Nat) : List Nat :=
  let padded := msg ++ 128 :: List.replicate (padZeroCount msg.length) 0 ++
    beBytes8 (msg.length * 8)
  let h := (chunks64 padded).foldl sha256Block sha256Init
  beBytes4 h.a ++ beBytes4 h.b ++ beBytes4 h.c ++ beBytes4 h.d ++
    beBytes4 h.e ++ beBytes4 h.f ++ beBytes4 h.g ++ beBytes4 h.hh

/-! ### MD5 -/

structure Hash4 where
  a : Nat
  b : Nat
  c : Nat
  d : Nat
deriving Repr, DecidableEq

def md5Init : Hash4 := ⟨0x67452301, 0xefcdab89, 0x98badcfe, 0x10325476⟩

def md5S : List Nat :=
  [7, 12, 17, 22, 7, 12, 17, 22, 7, 12, 17, 22, 7, 12, 17, 22,
   5, 9, 14, 20, 5, 9, 14, 20, 5, 9, 14, 20, 5, 9, 14, 20,
   4, 11, 16, 23, 4, 11, 16, 23, 4, 11, 16, 23, 4, 11, 16, 23,
   6, 10, 15, 21, 6, 10, 15, 21, 6, 10, 15, 21, 6, 10, 15, 21]

def md5K : List Nat :=
  [0xd76aa478, 0xe8c7b756, 0x242070db, 0xc1bdceee,
   0xf57c0faf, 0x4787c62a, 0xa8304613, 0xfd469501,
   0x698098d8, 0x8b44f7af, 0xffff5bb1, 0x895cd7be,
   0x6b901122, 0xfd987193, 0xa679438e, 0x49b40821,
   0xf61e2562, 0xc040b340, 0x265e5a51, 0xe9b6c7aa,
   0xd62f105d, 0x02441453, 0xd8a1e681, 0xe7d3fbc8,
   0x21e1cde6, 0xc33707d6, 0xf4d50d87, 0x455a14ed,
   0xa9e3e905, 0xfcefa3f8, 0x676f02d9, 0x8d2a4c8a,
   0xfffa3942, 0x8771f681, 0x6d9d6122, 0xfde5380c,
   0xa4beea44, 0x4bdecfa9, 0xf6bb4b60, 0xbebfbc70,
   0x289b7ec6, 0xeaa127fa, 0xd4ef3085, 0x04881d05,
   0xd9d4d039, 0xe6db99e5, 0x1fa27cf8, 0xc4ac5665,
   0xf4292244, 0x432aff97, 0xab9423a7, 0xfc93a039,
   0x655b59c3, 0x8f0ccc92, 0xffeff47d, 0x85845dd1,
   0x6fa87e4f, 0xfe2ce6e0, 0xa3014314, 0x4e0811a1,
   0xf7537e82, 0xbd3af235, 0x2ad7d2bb, 0xeb86d391]

def md5Round (m : List Nat) (st : Hash4) (i : Nat) : Hash4 :=
  let fg : Nat × Nat :=
    if i < 16 then
      ((st.b &&& st.c) ||| ((4294967295 - st.b) &&& st.d), i)
    else if i < 32 then
      ((st.d &&& st.b) ||| ((4294967295 - st.d) &&& st.c), (5 * i + 1) % 16)
    else if i < 48 then
      (st.b ^^^ st.c ^^^ st.d, (3 * i + 5) % 16)
    else
      (st.c ^^^ (st.b ||| (4294967295 - st.d)), (7 * i) % 16)
  let sum := (fg.1 + st.a + md5K.getD i 0 + m.getD fg.2 0) % pow32
  ⟨st.d, (st.b + rotl32 sum (md5S.getD i 0)) % pow32, st.b, st.c⟩

def md5Block (h : Hash4) (block : List Nat) : Hash4 :=
  let m := leWords block
  let s := (List.range 64).foldl (md5Round m) h
  ⟨(h.a + s.a) % pow32, (h.b + s.b) % pow32,
    (h.c + s.c) % pow32, (h.d + s.d) % pow32⟩

/-- MD5 digest (16 bytes) of a byte list. -/
def md5Bytes (msg : List Nat) : List Nat :=
  let padded := msg ++ 128 :: List.replicate (padZeroCount msg.length) 0 ++
    leBytes8 (msg.length * 8)
  let h := (chunks64 padded).foldl md5Block md5Init
  leBytes4 h.a ++ leBytes4 h.b ++ leBytes4 h.c ++ leBytes4 h.d

/-! ## Scraper data model (`scraper.go` types, JSON-irrelevant fields kept) -/

/-- `scraper.go Link`.  `ltype` is Go's `Link.Type` (`"internal"`/`"external"`). -/
structure Link where
  url : String
  title : String
  ltype : String
deriving Repr, DecidableEq

/-- `pdf_extractor.go PDFContent` (extraction metadata beyond the text is not
used by any claim and is left at its zero value, as the extractor does for
`Title`/`Author`/...). -/
structure PDFContent where
  text : String
  title : String := ""
  lastUpdated : Nat
deriving Repr, DecidableEq

/-- `file_parser.go FileContent` (sheet/row metadata omitted). -/
structure FileContent where
  text : String
  fileName : String
  fileType : String
  lastUpdated : Nat
deriving Repr, DecidableEq

/-- `scraper.go FirstLevelLink` (allocated empty and never populated by the
current code). -/
structure FirstLevelLink where
  url : String
  title : String
deriving Repr, DecidableEq

/-- `scraper.go LinkedPageContent`. -/
structure LinkedPageContent where
  url : String
  title : String
  text : String := ""
  description : String := ""
  keywords : List String := []
  relevance : Nat := 0
  contentType : String := ""
  firstLevelLinks : List FirstLevelLink := []
  lastUpdated : Nat
  contentHash : String
deriving Repr, DecidableEq

/-- `scraper.go WebsiteContent`.  Go maps become association lists. -/
structure WebsiteContent where
  title : String := ""
  description : String := ""
  links : List Link := []
  text : String := ""
  pdfContent : List (String × PDFContent) := []
  fileContent : List (String × FileContent) := []
  linkedContent : List (String × LinkedPageContent) := []
  metadata : List (String × String) := []
  lastUpdated : Nat
  contentHash : String := ""
deriving Repr, DecidableEq

/-- `scraper.go ScrapedUrl` (audit-log entry); `stype` is Go's `Type`. -/
structure ScrapedUrl where
  url : String
  stype : String
  title : String
  success : Bool
  errorMsg : String := ""
  scrapedAt : Nat
  relevance : Nat
  contentType : String
deriving Repr, DecidableEq

/-- One on-disk `content.json` wrapper (`{url, savedAt, content}`; `savedAt`
is not read back and is omitted). -/
structure DiskEntry where
  url : String
  content : WebsiteContent
deriving Repr, DecidableEq

/-- The configuration fields of `WebScraper` (set once in `NewWebScraper`).
`summarize` models the optional Ollama summarization collaborator
(`none` = service absent/disabled; `some f` with `f title text = none`
modelling a summarization error). -/
structure ScraperConfig where
  allowedUrlPatterns : List String := []
  enableInternalLinks : Bool := false
  refreshContent : Bool := false
  maxContentLength : Nat := 10000
  maxScrapingDepth : Nat := 2
  maxPagesPerSession : Nat := 100
  cacheDuration : Nat := 86400
  memoryCacheDuration : Nat := 3600
  summarize : Option (String → String → Option String) := none

/-- The mutable fields of `WebScraper`, plus the disk-cache contents, a model
clock (`now`) and instrumentation (`pageFetches`/`assetFetches` log network
attempts, `diskReads` logs `loadContentFromDisk` calls, `extractCount` counts
text-extraction passes, `mainLinked` is the root record's `LinkedContent` map
mutated through the `mainContent` pointer). -/
structure ScraperState where
  cache : List (String × WebsiteContent) := []
  visitedUrls : List String := []
  scrapedPagesCount : Nat := 0
  scrapedUrls : List ScrapedUrl := []
  disk : List (String × DiskEntry) := []
  pdfCache : List (String × PDFContent) := []
  fileCache : List (String × FileContent) := []
  mainLinked : List (String × LinkedPageContent) := []
  pageFetches : List String := []
  assetFetches : List String := []
  diskReads : List String := []
  extractCount : Nat := 0
  now : Nat := 0
deriving Repr

/-- The network: URL to raw response body (`none` = transport error or
non-200 status). -/
abbrev Web := String → Option String

/-- Go map assignment `m[k] = v` on an association list. -/
def setAssoc {β : Type} (m : List (String × β)) (k : String) (v : β) :
    List (String × β) :=
  match m with
  | [] => [(k, v)]
  | (k0, v0) :: rest =>
    if k0 = k then (k, v) :: rest else (k0, v0) :: setAssoc rest k v

/-- Disk-store write: kept sorted by directory name so that the scan order of
`findContentByHash` matches `os.ReadDir`'s sorted listing. -/
def diskSet (m : List (String × DiskEntry)) (k : String) (v : DiskEntry) :
    List (String × DiskEntry) :=
  match m with
  | [] => [(k, v)]
  | (k0, v0) :: rest =>
    if k0 = k then (k, v) :: rest
    else if strLe k k0 then (k, v) :: (k0, v0) :: rest
    else (k0, v0) :: diskSet rest k v

/-! ## Parsed-document model -/

/-- Model of the parsed HTML document (goquery).  The raw bytes are modelled
as a line-based serialization: `t|...` is the `<title>` text, `l|HREF|TEXT`
an `<a href>` element, `d|...` the meta description, `k|...` the meta
keywords, `x|...` the text of one element emitted by `walk`.  Parsing is a
pure function of the raw bytes, exactly as `goquery.NewDocumentFromReader`
is a pure function of the response body. -/
structure Doc where
  title : String
  description : String
  keywords : String
  links : List (String × String)
  bodyText : String
deriving Repr, DecidableEq

def splitBarPiece (s : String) : String × String :=
  let p := splitFirst '|' s.data
  (⟨p.1⟩, ⟨p.2.getD []⟩)

/-- The text accumulated by `walk` (`scraper.go:1129`): each non-empty
trimmed element text contributes one `" text\n"` line. -/
def walkText (ls : List String) : String :=
  String.join ((ls.filter (fun L => strStarts L "x|")).map fun L =>
    let t := goTrim (L.drop 2)
    if t = "" then "" else " " ++ t ++ "\n")

def parseDoc (raw : String) : Doc :=
  let ls := splitCh (Char.ofNat 10) raw
  { title := goTrim (((ls.find? (fun L => strStarts L "t|")).getD "t|").drop 2)
    description := ((ls.find? (fun L => strStarts L "d|")).getD "d|").drop 2
    keywords := ((ls.find? (fun L => strStarts L "k|")).getD "k|").drop 2
    links := (ls.filter (fun L => strStarts L "l|")).map
      (fun L => splitBarPiece (L.drop 2))
    bodyText := walkText ls }

/-! ## Pure scraper helpers -/

/-- `scraper.go isUrlAllowed`. -/
def isUrlAllowed (cfg : ScraperConfig) (targetUrl : String) : Bool :=
  if cfg.allowedUrlPatterns.isEmpty then true
  else cfg.allowedUrlPatterns.any fun pat => goContains (goToLower targetUrl) pat

/-- `scraper.go calculateContentHash` (SHA-256, lower-case hex). -/
def calculateContentHash (htmlContent : String) : String :=
  hexOfBytes (sha256Bytes (utf8Bytes htmlContent))

/-- `scraper.go isURLVisited`. -/
def isURLVisited (s : ScraperState) (targetUrl : String) : Bool :=
  s.visitedUrls.contains (normalizeURL targetUrl)

/-- `scraper.go markURLVisited`. -/
def markURLVisited (s : ScraperState) (targetUrl : String) : ScraperState :=
  { s with visitedUrls := normalizeURL targetUrl :: s.visitedUrls }

/-- `scraper.go canScrapeMore`. -/
def canScrapeMore (cfg : ScraperConfig) (s : ScraperState) : Bool :=
  s.scrapedPagesCount < cfg.maxPagesPerSession

/-- `scraper.go recordScrapedUrl` (append-only audit log). -/
def recordScrapedUrl (s : ScraperState) (url stype title : String)
    (success : Bool) (errMsg : String) (relevance : Nat) (contentType : String) :
    ScraperState :=
  { s with
    scrapedUrls := s.scrapedUrls ++
      [{ url := url, stype := stype, title := title, success := success,
         errorMsg := errMsg, scrapedAt := s.now, relevance := relevance,
         contentType := contentType }] }

/-- `scraper.go ClearScrapedUrls` (session reset). -/
def ClearScrapedUrls (s : ScraperState) : ScraperState :=
  { s with scrapedUrls := [], visitedUrls := [], scrapedPagesCount := 0 }

def sanitizeDomainChar (c : Char) : Char :=
  if NetUrl.isAlphaNum c ∨ c = '.' ∨ c = '-' then c else '_'

/-- `scraper.go generateSafeDirectoryName` (the regexp `[^a-zA-Z0-9.-]` is the
per-character replacement `sanitizeDomainChar`; the `[:8]` hash slice keeps
8 hex characters). -/
def generateSafeDirectoryName (targetUrl : String) : String :=
  match NetUrl.parse targetUrl.data with
  | none => hexOfBytes (md5Bytes (utf8Bytes targetUrl))
  | some u =>
    let d0 := goTrimPre "www." u.host
    let d1 := goTrimPre "http://" d0
    let d2 := goTrimPre "https://" d1
    let domainSafe : String := ⟨d2.data.map sanitizeDomainChar⟩
    let fullPath := u.path ++ (if u.rawQuery ≠ "" then "?" ++ u.rawQuery else "")
    let pathHash := (hexOfBytes (md5Bytes (utf8Bytes fullPath))).take 8
    if fullPath = "/" ∨ fullPath = "" then domainSafe
    else domainSafe ++ "_" ++ pathHash

/-- `scraper.go getContentFilePath`: the per-URL store key (constant cache
root and `content.json` leaf elided). -/
def getContentFilePath (targetUrl : String) : String :=
  generateSafeDirectoryName targetUrl

/-- `scraper.go loadContentFromDisk`; the read attempt is logged in
`diskReads`. -/
def loadContentFromDisk (s : ScraperState) (targetUrl : String) :
    Option WebsiteContent × ScraperState :=
  let key := getContentFilePath targetUrl
  ((s.disk.lookup key).map DiskEntry.content,
    { s with diskReads := s.diskReads ++ [key] })

/-- `scraper.go saveContentToDisk` (whole-file overwrite). -/
def saveContentToDisk (s : ScraperState) (targetUrl : String)
    (content : WebsiteContent) : ScraperState :=
  { s with
    disk := diskSet s.disk (getContentFilePath targetUrl)
      ⟨targetUrl, content⟩ }

/-- `scraper.go findContentByHash`: linear scan of the cache directories in
listing order for a record with the given `contentHash`. -/
def findContentByHash (disk : List (String × DiskEntry)) (contentHash : String) :
    Option WebsiteContent :=
  match disk with
  | [] => none
  | (_, e) :: rest =>
    if e.content.contentHash = contentHash then some e.content
    else findContentByHash rest contentHash

/-- `pdf_extractor.go isValidPDFURL`. -/
def isValidPDFURL (rawURL : String) : Bool :=
  match NetUrl.parse rawURL.data with
  | none => false
  | some u => strEnds (goToLower u.path) ".pdf"

/-- `file_parser.go isValidFileURL`. -/
def isValidFileURL (rawURL : String) : Bool :=
  match NetUrl.parse rawURL.data with
  | none => false
  | some u =>
    strEnds (goToLower u.path) ".xlsx" ∨ strEnds (goToLower u.path) ".docx" ∨
      strEnds (goToLower u.path) ".csv"

/-- `scraper.go isPDFLink`. -/
def isPDFLink (url : String) : Bool := isValidPDFURL url

/-- `scraper.go isFileLink`. -/
def isFileLink (url : String) : Bool := isValidFileURL url

/-- `scraper.go resolveURL`. -/
def resolveURL (baseURL linkURL : String) : String :=
  if strStarts linkURL "http" then linkURL
  else
    let fallback :=
      if strStarts linkURL "/" then goTrimSuf baseURL "/" ++ linkURL
      else goTrimSuf baseURL "/" ++ "/" ++ linkURL
    match NetUrl.parse baseURL.data with
    | none => fallback
    | some base =>
      match NetUrl.parse linkURL.data with
      | none => fallback
      | some rel => ⟨NetUrl.urlString (NetUrl.resolveReference base rel)⟩

/-- `scraper.go isProfessionalLink`. -/
def isProfessionalLink (url : String) : Bool :=
  ["linkedin.com", "github.com", "gitlab.com", "stackoverflow.com",
    "medium.com", "dev.to", "twitter.com", "x.com"].any
    fun domain => goContains (goToLower url) domain

/-- `scraper.go isInternalNavigationLink`. -/
def isInternalNavigationLink (cfg : ScraperConfig) (fullUrl linkType : String) :
    Bool :=
  if linkType ≠ "internal" then false
  else if ¬isUrlAllowed cfg fullUrl then false
  else
    ¬(["#", "mailto:", "tel:", "javascript:", ".css", ".js", ".ico", ".png",
        ".jpg", ".jpeg", ".gif", ".svg", "/admin", "/login", "/logout",
        "/cart", "/checkout", "?search", "?sort", "?filter"].any
      fun pat => goContains (goToLower fullUrl) pat)

/-- `scraper.go determineContentType`. -/
def determineContentType (url : String) : String :=
  let lowerURL := goToLower url
  if goContains lowerURL "github.com" ∨ goContains lowerURL "gitlab.com" then
    "project"
  else if goContains lowerURL "linkedin.com" then "professional"
  else if goContains lowerURL "medium.com" ∨ goContains lowerURL "dev.to" ∨
      goContains lowerURL "blog" then "blog"
  else if goContains lowerURL "stackoverflow.com" then "technical"
  else "general"

/-- `scraper.go isSameDomain` ("simple domain comparison"). -/
def isSameDomain (url1 url2 : String) : Bool :=
  (goContains url1 "github.com" ∧ goContains url2 "github.com") ∨
    (goContains url1 "linkedin.com" ∧ goContains url2 "linkedin.com")

/-- The truncate-or-summarize step shared by the main and linked page paths
(`scraper.go:675`/`1053`): summarization failure or absence falls back to
truncation at `maxContentLength` with an ellipsis marker. -/
def summarizeOrTruncate (cfg : ScraperConfig) (title fullText : String) :
    String :=
  let truncated :=
    if cfg.maxContentLength < fullText.length then
      fullText.take cfg.maxContentLength ++ "..."
    else fullText
  match cfg.summarize with
  | some f => if fullText ≠ "" then (f title fullText).getD truncated else truncated
  | none => truncated

/-! ## Page fetching and the crawl (`scraper.go:502-1127`) -/

/-- Result triple of `scrapePage`: parsed document, title, content hash. -/
abbrev PageResult := Doc × String × String

/-- `scraper.go scrapePage` (`scraper.go:507`): depth/budget guard (silent),
visited-set guard for linked pages (silent), allow-list guard (recorded),
then — for linked pages — visited marking and budget increment *before* the
HTTP GET; fetch, hash, parse, title extraction.  `none` models every error
return; the fetch attempt is appended to `pageFetches`. -/
def scrapePage (cfg : ScraperConfig) (web : Web) (targetUrl : String)
    (depth : Nat) (urlType : String) (s : ScraperState) :
    Option PageResult × ScraperState :=
  if cfg.maxScrapingDepth ≤ depth ∨ ¬canScrapeMore cfg s then (none, s)
  else if urlType = "linked" ∧ isURLVisited s targetUrl then (none, s)
  else if ¬isUrlAllowed cfg targetUrl then
    (none,
      recordScrapedUrl s targetUrl urlType "" false
        "URL not allowed for scraping" 0 "")
  else
    let s1 :=
      if urlType = "linked" then
        { markURLVisited s targetUrl with
          scrapedPagesCount := s.scrapedPagesCount + 1 }
      else s
    let s2 := { s1 with pageFetches := s1.pageFetches ++ [targetUrl] }
    match web targetUrl with
    | none =>
      (none,
        recordScrapedUrl s2 targetUrl urlType "" false "failed to fetch URL" 0 "")
    | some htmlContent =>
      let contentHash := calculateContentHash htmlContent
      let doc := parseDoc htmlContent
      (some (doc, doc.title, contentHash), s2)

/-- One PDF extraction attempt (`pdf_extractor.go ExtractFromURL` +
bookkeeping of `processPDFs`); extraction is modelled as a pure function of
the fetched bytes. -/
def pdfFetch (web : Web) (content : WebsiteContent) (s : ScraperState)
    (linkUrl linkTitle fullURL : String) : WebsiteContent × ScraperState :=
  let s1 := { s with assetFetches := s.assetFetches ++ [fullURL] }
  match web fullURL with
  | none =>
    (content,
      recordScrapedUrl s1 fullURL "pdf" linkTitle false "failed to fetch PDF" 0 "pdf")
  | some raw =>
    let pc : PDFContent := { text := goTrim raw, lastUpdated := s1.now }
    let s2 := recordScrapedUrl s1 fullURL "pdf" pc.title true "" 0 "pdf"
    ({ content with pdfContent := setAssoc content.pdfContent linkUrl pc },
      { s2 with pdfCache := setAssoc s2.pdfCache fullURL pc })

/-- `scraper.go processPDFs` (loop body over `content.Links`). -/
def processPDFsAux (cfg : ScraperConfig) (web : Web) (baseURL : String) :
    List Link → WebsiteContent → ScraperState → WebsiteContent × ScraperState
  | [], content, s => (content, s)
  | link :: rest, content, s =>
    if isPDFLink link.url then
      let fullURL := resolveURL baseURL link.url
      match s.pdfCache.lookup fullURL with
      | some cached =>
        if s.now - cached.lastUpdated < cfg.cacheDuration then
          processPDFsAux cfg web baseURL rest
            { content with pdfContent := setAssoc content.pdfContent link.url cached }
            s
        else
          let r := pdfFetch web content s link.url link.title fullURL
          processPDFsAux cfg web baseURL rest r.1 r.2
      | none =>
        let r := pdfFetch web content s link.url link.title fullURL
        processPDFsAux cfg web baseURL rest r.1 r.2
    else processPDFsAux cfg web baseURL rest content s

def processPDFs (cfg : ScraperConfig) (web : Web) (content : WebsiteContent)
    (baseURL : String) (s : ScraperState) : WebsiteContent × ScraperState :=
  processPDFsAux cfg web baseURL content.links content s

/-- Base name and extension of a URL path (`filepath.Base`/`filepath.Ext`
as used by `file_parser.go ParseFromURL`). -/
def pathBase (p : String) : String :=
  ⟨((NetUrl.splitChAux '/' [] p.data).getLast?.getD [])⟩

def pathExt (p : String) : String :=
  match lastIdxOf '.' p.data with
  | none => ""
  | some i => ⟨p.data.drop i⟩

/-- One office-file parse attempt (`file_parser.go ParseFromURL` +
bookkeeping of `processFiles`); parsing is modelled as a pure function of the
fetched bytes. -/
def fileFetch (web : Web) (content : WebsiteContent) (s : ScraperState)
    (linkUrl linkTitle fullURL : String) : WebsiteContent × ScraperState :=
  let s1 := { s with assetFetches := s.assetFetches ++ [fullURL] }
  match web fullURL with
  | none =>
    (content,
      recordScrapedUrl s1 fullURL "file" linkTitle false "failed to fetch file" 0 "file")
  | some raw =>
    let name :=
      match NetUrl.parse fullURL.data with
      | none => ""
      | some u => pathBase u.path
    let fc : FileContent :=
      { text := goTrim raw, fileName := name,
        fileType := (goToLower (pathExt name)).drop 1, lastUpdated := s1.now }
    let s2 := recordScrapedUrl s1 fullURL "file" fc.fileName true "" 0 fc.fileType
    ({ content with fileContent := setAssoc content.fileContent linkUrl fc },
      { s2 with fileCache := setAssoc s2.fileCache fullURL fc })

/-- `scraper.go processFiles` (loop body over `content.Links`). -/
def processFilesAux (cfg : ScraperConfig) (web : Web) (baseURL : String) :
    List Link → WebsiteContent → ScraperState → WebsiteContent × ScraperState
  | [], content, s => (content, s)
  | link :: rest, content, s =>
    if isFileLink link.url then
      let fullURL := resolveURL baseURL link.url
      match s.fileCache.lookup fullURL with
      | some cached =>
        if s.now - cached.lastUpdated < cfg.cacheDuration then
          processFilesAux cfg web baseURL rest
            { content with fileContent := setAssoc content.fileContent link.url cached }
            s
        else
          let r := fileFetch web content s link.url link.title fullURL
          processFilesAux cfg web baseURL rest r.1 r.2
      | none =>
        let r := fileFetch web content s link.url link.title fullURL
        processFilesAux cfg web baseURL rest r.1 r.2
    else processFilesAux cfg web baseURL rest content s

def processFiles (cfg : ScraperConfig) (web : Web) (content : WebsiteContent)
    (baseURL : String) (s : ScraperState) : WebsiteContent × ScraperState :=
  processFilesAux cfg web baseURL content.links content s

/-- The nested-link loop of `scrapeLinkedPageWithDepthAndContent`
(`scraper.go:1078-1120`): resolve relative hrefs, skip non-HTTP, same-domain,
visited and disallowed URLs, recurse one level deeper, and merge successful
results into the root record's `LinkedContent` map (`mainLinked`).
`recCall` is the recursive crawl at the next fuel level. -/
def nestedLinksAux (cfg : ScraperConfig)
    (recCall : String → Nat → ScraperState → Option LinkedPageContent × ScraperState)
    (targetUrl : String) (depth : Nat) :
    List (String × String) → ScraperState → ScraperState
  | [], s => s
  | (href, _) :: rest, s =>
    let fullURL :=
      if strStarts href "/" ∨ strStarts href "./" then resolveURL targetUrl href
      else href
    if ¬strStarts fullURL "http" then
      nestedLinksAux cfg recCall targetUrl depth rest s
    else if isSameDomain targetUrl fullURL then
      nestedLinksAux cfg recCall targetUrl depth rest s
    else if isURLVisited s fullURL then
      nestedLinksAux cfg recCall targetUrl depth rest s
    else if ¬isUrlAllowed cfg fullURL then
      nestedLinksAux cfg recCall targetUrl depth rest s
    else
      match recCall fullURL (depth + 1) s with
      | (some nested, s1) =>
        nestedLinksAux cfg recCall targetUrl depth rest
          { s1 with mainLinked := setAssoc s1.mainLinked fullURL nested }
      | (none, s1) => nestedLinksAux cfg recCall targetUrl depth rest s1

/-- `scraper.go scrapeLinkedPageWithDepthAndContent` (`scraper.go:949`),
structural on `fuel`; any `fuel ≥ cfg.maxScrapingDepth - depth + 1` gives the
code's behaviour because every recursive call increases `depth` and is guarded
by `depth + 1 < maxScrapingDepth`, so the `fuel = 0` branch is unreachable
from `ScrapeWebsite`. -/
def scrapeLinkedPageWithDepthAndContent (cfg : ScraperConfig) (web : Web) :
    Nat → String → Nat → ScraperState → Option LinkedPageContent × ScraperState
  | 0, _, _, s => (none, s)
  | fuel + 1, targetUrl, depth, s =>
    match scrapePage cfg web targetUrl depth "linked" s with
    | (none, s1) => (none, s1)
    | (some (doc, title, contentHash), s1) =>
      let reuseOpt :=
        match findContentByHash s1.disk contentHash with
        | some existingContent =>
          (existingContent.linkedContent.find?
            fun p : String × LinkedPageContent =>
              p.2.contentHash = contentHash).map Prod.snd
        | none => none
      match reuseOpt with
      | some elc =>
        let linkedContent := { elc with url := targetUrl, lastUpdated := s1.now }
        let s2 :=
          { s1 with mainLinked := setAssoc s1.mainLinked targetUrl linkedContent }
        let s3 := recordScrapedUrl s2 targetUrl "linked" linkedContent.title true ""
          linkedContent.relevance "content_reused"
        (some linkedContent, s3)
      | none =>
        let s2 := { s1 with extractCount := s1.extractCount + 1 }
        let fullText := doc.bodyText
        let linkedContent : LinkedPageContent :=
          { url := targetUrl, title := title,
            text := summarizeOrTruncate cfg title fullText,
            description := doc.description,
            keywords :=
              if doc.keywords = "" then []
              else (splitCh ',' doc.keywords).map goTrim,
            contentType := determineContentType targetUrl,
            lastUpdated := s2.now, contentHash := contentHash }
        let s3 :=
          if depth + 1 < cfg.maxScrapingDepth ∧ canScrapeMore cfg s2 then
            nestedLinksAux cfg
              (fun u d st => scrapeLinkedPageWithDepthAndContent cfg web fuel u d st)
              targetUrl depth doc.links s2
          else s2
        let s4 := recordScrapedUrl s3 targetUrl "linked" linkedContent.title true ""
          linkedContent.relevance linkedContent.contentType
        (some linkedContent, s4)

/-- The first-level link loop of `processLinkedContentWithDepth`
(`scraper.go:836-872`): the result of each linked-page crawl is discarded
(the commented-out assignment in the source); errors only continue. -/
def processLinksAux (cfg : ScraperConfig)
    (recCall : String → Nat → ScraperState → Option LinkedPageContent × ScraperState)
    (baseURL : String) (depth : Nat) :
    List Link → ScraperState → ScraperState
  | [], s => s
  | link :: rest, s =>
    let fullURL :=
      if link.ltype = "internal" then resolveURL baseURL link.url
      else if strStarts link.url "/" then resolveURL baseURL link.url
      else link.url
    let shouldProcess :=
      isProfessionalLink fullURL ∨
        (cfg.enableInternalLinks ∧ isInternalNavigationLink cfg fullURL link.ltype)
    if shouldProcess then
      processLinksAux cfg recCall baseURL depth rest (recCall fullURL (depth + 1) s).2
    else processLinksAux cfg recCall baseURL depth rest s

/-- `scraper.go processLinkedContentWithDepth` (`scraper.go:826`). -/
def processLinkedContentWithDepth (cfg : ScraperConfig) (web : Web) (fuel : Nat)
    (content : WebsiteContent) (baseURL : String) (depth : Nat)
    (s : ScraperState) : ScraperState :=
  if cfg.maxScrapingDepth ≤ depth ∨ ¬canScrapeMore cfg s then s
  else
    processLinksAux cfg
      (fun u d st => scrapeLinkedPageWithDepthAndContent cfg web fuel u d st)
      baseURL depth content.links (markURLVisited s baseURL)

/-- The fresh-extraction tail of `scrapeWebsiteWithDepth`
(`scraper.go:632-725`): build the record, extract text (counted in
`extractCount`), summarize/truncate, collect links, process documents and
linked pages, record, persist, fill the memory cache. -/
def mainFreshStep (cfg : ScraperConfig) (web : Web) (fuel : Nat)
    (targetUrl : String) (depth : Nat) (doc : Doc)
    (title contentHash : String) (s1 : ScraperState) :
    Option WebsiteContent × ScraperState :=
  let s2 := { s1 with extractCount := s1.extractCount + 1 }
  let fullText := doc.bodyText
  let content0 : WebsiteContent :=
    { title := title,
      description := doc.description,
      metadata :=
        if doc.keywords ≠ "" then [("keywords", doc.keywords)] else [],
      text := summarizeOrTruncate cfg title fullText,
      links := doc.links.map fun p : String × String =>
        { url := p.1, title := goTrim p.2,
          ltype := if strStarts p.1 "http" then "external" else "internal" },
      lastUpdated := s2.now, contentHash := contentHash }
  let r1 := processPDFs cfg web content0 targetUrl s2
  let r2 := processFiles cfg web r1.1 targetUrl r1.2
  let s5 := { r2.2 with mainLinked := [] }
  let s6 := processLinkedContentWithDepth cfg web fuel r2.1 targetUrl depth s5
  let content := { r2.1 with linkedContent := s6.mainLinked }
  let s7 := recordScrapedUrl s6 targetUrl "main" content.title true "" 0
    "website"
  let s8 := saveContentToDisk s7 targetUrl content
  (some content, { s8 with cache := setAssoc s8.cache targetUrl content })

/-- The memory-cache/fetch/dedup tail of `scrapeWebsiteWithDepth`
(`scraper.go:602-630`), entered when the disk-cache step yielded nothing. -/
def scrapeMainTail (cfg : ScraperConfig) (web : Web) (fuel : Nat)
    (targetUrl : String) (depth : Nat) (s0 : ScraperState) :
    Option WebsiteContent × ScraperState :=
  let memHit : Option WebsiteContent :=
    match s0.cache.lookup targetUrl with
    | some cached =>
      if s0.now - cached.lastUpdated < cfg.memoryCacheDuration then some cached
      else none
    | none => none
  match memHit with
  | some cached =>
    (some cached,
      recordScrapedUrl s0 targetUrl "main" cached.title true "" 0 "memory_cached")
  | none =>
    match scrapePage cfg web targetUrl depth "main" s0 with
    | (none, s1) => (none, s1)
    | (some (doc, title, contentHash), s1) =>
      match findContentByHash s1.disk contentHash with
      | some existingContent =>
        let content := { existingContent with lastUpdated := s1.now }
        let s2 := { s1 with cache := setAssoc s1.cache targetUrl content }
        let s3 := saveContentToDisk s2 targetUrl content
        let s4 := recordScrapedUrl s3 targetUrl "main" content.title true "" 0
          "content_reused"
        (some content, s4)
      | none => mainFreshStep cfg web fuel targetUrl depth doc title contentHash s1

/-- `scraper.go scrapeWebsiteWithDepth` (`scraper.go:589`): disk cache (only
when refresh is off), memory cache, fetch, content-hash dedup short-circuit,
fresh extraction, link discovery, document/linked-page processing,
persistence. -/
def scrapeWebsiteWithDepth (cfg : ScraperConfig) (web : Web) (fuel : Nat)
    (targetUrl : String) (depth : Nat) (s : ScraperState) :
    Option WebsiteContent × ScraperState :=
  let diskStep : Option WebsiteContent × ScraperState :=
    if cfg.refreshContent then (none, s)
    else
      let r := loadContentFromDisk s targetUrl
      match r.1 with
      | some diskContent =>
        if r.2.now - diskContent.lastUpdated < cfg.cacheDuration then
          (some diskContent, r.2)
        else (none, r.2)
      | none => (none, r.2)
  match diskStep with
  | (some diskContent, s0) =>
    let s1 := recordScrapedUrl s0 targetUrl "main" diskContent.title true "" 0
      "disk_cached"
    (some diskContent, { s1 with cache := setAssoc s1.cache targetUrl diskContent })
  | (none, s0) => scrapeMainTail cfg web fuel targetUrl depth s0

/-- `scraper.go ScrapeWebsite`: the public entry point, depth 0.  The fuel
`cfg.maxScrapingDepth` is always sufficient (see
`scrapeLinkedPageWithDepthAndContent`). -/
def ScrapeWebsite (cfg : ScraperConfig) (web : Web) (targetUrl : String)
    (s : ScraperState) : Option WebsiteContent × ScraperState :=
  scrapeWebsiteWithDepth cfg web cfg.maxScrapingDepth targetUrl 0 s

/-! ## Spec-side definitions (for refinement claims) -/

/-- The content-type rules as the specification words them: an ordered list of
(substring patterns, label); the first rule with a matching pattern wins. -/
def contentTypeRules : List (List String × String) :=
  [(["github.com", "gitlab.com"], "project"),
   (["linkedin.com"], "professional"),
   (["medium.com", "dev.to", "blog"], "blog"),
   (["stackoverflow.com"], "technical")]

/-- First-match-wins evaluation of rules over a lower-cased URL,
defaulting to `"general"`. -/
def firstMatchRule (lowerURL : String) : List (List String × String) → String
  | [] => "general"
  | (pats, label) :: rest =>
    if pats.any (fun pat => goContains lowerURL pat) then label
    else firstMatchRule lowerURL rest

/-- The claim's reading of `determineContentType`: the ordered rules applied
first-match-wins. -/
def determineContentTypeSpec (url : String) : String :=
  firstMatchRule (goToLower url) contentTypeRules

/-- Characters allowed in the host of a `SimpleURL` (lower-case letters,
digits, dot, hyphen). -/
def simpleHostChars : List Char := "abcdefghijklmnopqrstuvwxyz0123456789.-".data

/-- Characters allowed in the path of a `SimpleURL`. -/
def simplePathChars : List Char := "abcdefghijklmnopqrstuvwxyz0123456789._~-/".data

/-- The class of URLs on which `normalizeURL` is proved idempotent: plain
lower-case `http`/`https` URLs with a simple registered-name host, no
userinfo/port/query/fragment/percent-escapes, and no redundant trailing slash
(the normalizer's output shape for such inputs). -/
def SimpleURL (u : String) : Prop :=
  ∃ sch host path : String,
    (sch = "http" ∨ sch = "https") ∧
    u = sch ++ "://" ++ host ++ path ∧
    host ≠ "" ∧ (∀ c ∈ host.data, c ∈ simpleHostChars) ∧
    (∀ c ∈ path.data, c ∈ simplePathChars) ∧
    (path = "" ∨ (path.data.head? = some '/' ∧
      (path = "/" ∨ path.data.getLast? ≠ some '/')))

/-! ## Crawl-state evolution invariants -/

/-- The loop-freedom invariant: every fetched page's normalized URL has been
marked visited, and no two fetch attempts share a normalized URL. -/
def GoodS (s : ScraperState) : Prop :=
  (∀ x ∈ s.pageFetches, normalizeURL x ∈ s.visitedUrls) ∧
    (s.pageFetches.map normalizeURL).Nodup

/-- State evolution along any linked-page crawl step: the visited set grows,
the fetch log only extends, the page budget stays within bounds, the
loop-freedom invariant is preserved, no disk-cache load happens, and the
clock is unchanged. -/
structure Evol (cfg : ScraperConfig) (s t : ScraperState) : Prop where
  visited : ∀ x ∈ s.visitedUrls, x ∈ t.visitedUrls
  fetches : s.pageFetches <+: t.pageFetches
  count : s.scrapedPagesCount ≤ cfg.maxPagesPerSession →
    t.scrapedPagesCount ≤ cfg.maxPagesPerSession
  good : GoodS s → GoodS t
  reads : t.diskReads = s.diskReads
  clock : t.now = s.now

/-! ## Concrete scenario fixtures -/

/-- The default configuration (`NewWebScraper` with an empty environment):
no URL patterns (allow all), internal links off, refresh off, depth 2,
100 pages per session, 24h disk cache, 1h memory cache, no summarizer. -/
def cfgD : ScraperConfig := {}

/-- Default configuration with `MAX_SCRAPING_DEPTH=3`. -/
def cfgD3 : ScraperConfig := { maxScrapingDepth := 3 }

/-- A fresh session state. -/
def stFresh : ScraperState := { now := 1000 }

/-- Link chain A→B→C→D across distinct professional domains. -/
def webChain : Web := fun u =>
  if u = "http://example.com" then
    some "t|A\nl|https://github.com/b|B\nx|hello"
  else if u = "https://github.com/b" then
    some "t|B\nl|https://gitlab.com/c|C\nx|bb"
  else if u = "https://gitlab.com/c" then
    some "t|C\nl|https://stackoverflow.com/d|D\nx|cc"
  else if u = "https://stackoverflow.com/d" then some "t|D\nx|dd"
  else none

/-- Cyclic page graph A→B→A. -/
def webCycle : Web := fun u =>
  if u = "http://example.com" then
    some "t|A\nl|https://github.com/b|B\nx|hello"
  else if u = "https://github.com/b" then
    some "t|B\nl|http://example.com|A\nx|bb"
  else none

/-- Root page with three qualifying professional links. -/
def webMany : Web := fun u =>
  if u = "http://example.com" then
    some "t|A\nl|https://github.com/u1|\nl|https://github.com/u2|\nl|https://github.com/u3|\nx|hi"
  else some "t|L\nx|page"

/-- Two distinct URLs serving byte-identical content. -/
def webDup : Web := fun u =>
  if u = "http://site-one.com" then some "t|Same\nx|identical body"
  else if u = "http://site-two.com" then some "t|Same\nx|identical body"
  else none

/-- A cached record 2000 seconds old at `now = 1000000` (fresh for the 1h
memory window). -/
def memContent : WebsiteContent :=
  { title := "Cached M", lastUpdated := 998000, contentHash := "hm" }

/-- State with a fresh memory-cache entry for `http://m.example`. -/
def stMem : ScraperState :=
  { now := 1000000, cache := [("http://m.example", memContent)] }

/-- The force-refresh configuration (`REFRESH_CONTENT=true`). -/
def cfgR : ScraperConfig := { refreshContent := true }

/-- Network serving fresh bytes for the memory-cached URL. -/
def webM : Web := fun u =>
  if u = "http://m.example" then some "t|New M\nx|hi" else none

/-- A disk-cached record one hour old at `now = 1000000`. -/
def diskContent : WebsiteContent :=
  { title := "Cached D", lastUpdated := 996400, contentHash := "hd" }

/-- State with a disk-cache entry for `http://cached.example`
(directory name `cached.example`). -/
def stDisk : ScraperState :=
  { now := 1000000,
    disk := [("cached.example", ⟨"http://cached.example", diskContent⟩)] }

/-- The state after crawling the first of the two duplicate-content URLs. -/
def dupS1 : ScraperState :=
  (ScrapeWebsite cfgD webDup "http://site-one.com" stFresh).2


/-- Default configuration with a one-page session budget. -/
def cfgB1 : ScraperConfig := { maxPagesPerSession := 1 }

/-- The record produced by the first duplicate-content crawl. -/
def dupExisting : WebsiteContent :=
  ((ScrapeWebsite cfgD webDup "http://site-one.com" stFresh).1).getD
    { lastUpdated := 0 }

/-! # Theorems -/

theorem GoodS.of_eq {s t : ScraperState} (h1 : t.pageFetches = s.pageFetches)
    (h2 : t.visitedUrls = s.visitedUrls) (h : GoodS s) : GoodS t := by
  unfold GoodS at *
  rw [h1, h2]
  exact h

theorem evol_refl {cfg : ScraperConfig} {s : ScraperState} : Evol cfg s s :=
  ⟨fun _ h => h, List.prefix_refl _, id, id, rfl, rfl⟩

theorem Evol.trans {cfg : ScraperConfig} {s t u : ScraperState}
    (h1 : Evol cfg s t) (h2 : Evol cfg t u) : Evol cfg s u :=
  ⟨fun x hx => h2.visited x (h1.visited x hx), h1.fetches.trans h2.fetches,
   fun h => h2.count (h1.count h), fun g => h2.good (h1.good g),
   h2.reads.trans h1.reads, h2.clock.trans h1.clock⟩

theorem evol_of_fields {cfg : ScraperConfig} {s t : ScraperState}
    (h1 : t.visitedUrls = s.visitedUrls) (h2 : t.pageFetches = s.pageFetches)
    (h3 : t.scrapedPagesCount = s.scrapedPagesCount)
    (h4 : t.diskReads = s.diskReads) (h5 : t.now = s.now) : Evol cfg s t :=
  ⟨fun x hx => h1 ▸ hx, h2 ▸ List.prefix_refl _, fun h => h3 ▸ h,
   fun g => GoodS.of_eq h2 h1 g, h4, h5⟩

theorem recordScrapedUrl_evol {cfg : ScraperConfig} {s : ScraperState}
    {url ty ti e ct : String} {suc : Bool} {r : Nat} :
    Evol cfg s (recordScrapedUrl s url ty ti suc e r ct) :=
  evol_of_fields rfl rfl rfl rfl rfl

theorem markURLVisited_evol {cfg : ScraperConfig} {s : ScraperState}
    {url : String} : Evol cfg s (markURLVisited s url) :=
  ⟨fun x hx => List.mem_cons_of_mem _ hx, List.prefix_refl _, id,
   fun g => ⟨fun x hx => List.mem_cons_of_mem _ (g.1 x hx), g.2⟩, rfl, rfl⟩

/-- The state change of a linked-page fetch attempt: mark visited, spend one
budget unit, log the fetch. -/
theorem fetchStep_evol {cfg : ScraperConfig} {s : ScraperState} {url : String}
    (hvis : isURLVisited s url = false) (hcan : canScrapeMore cfg s = true) :
    Evol cfg s
      { s with
          visitedUrls := normalizeURL url :: s.visitedUrls,
          scrapedPagesCount := s.scrapedPagesCount + 1,
          pageFetches := s.pageFetches ++ [url] } := by
  have hcan2 : s.scrapedPagesCount < cfg.maxPagesPerSession := by
    simpa [canScrapeMore] using hcan
  have hnv : normalizeURL url ∉ s.visitedUrls := by
    simpa [isURLVisited] using hvis
  refine ⟨fun x hx => List.mem_cons_of_mem _ hx, List.prefix_append _ _,
    fun _ => by simpa using hcan2, fun g => ⟨?_, ?_⟩, rfl, rfl⟩
  · intro x hx
    rcases List.mem_append.1 hx with hx | hx
    · exact List.mem_cons_of_mem _ (g.1 x hx)
    · rcases List.mem_singleton.1 hx with rfl
      exact List.mem_cons_self _ _
  · rw [List.map_append]
    refine List.nodup_append.2 ⟨g.2, List.nodup_singleton _, ?_⟩
    intro a ha hb
    rcases List.mem_map.1 ha with ⟨x, hx, rfl⟩
    rcases List.mem_singleton.1 hb with h
    exact hnv (h ▸ g.1 x hx)

theorem scrapePage_linked_evol (cfg : ScraperConfig) (web : Web) (url : String)
    (depth : Nat) (s : ScraperState) :
    Evol cfg s (scrapePage cfg web url depth "linked" s).2 := by
  unfold scrapePage
  split
  · exact evol_refl
  · split
    · exact evol_refl
    · split
      · exact recordScrapedUrl_evol
      next h1 h2 h3 =>
        have hvis : isURLVisited s url = false := by
          by_contra hc
          exact h2 ⟨rfl, by simpa using hc⟩
        have hcan : canScrapeMore cfg s = true := by
          rcases not_or.1 h1 with ⟨-, hc⟩
          simpa using hc
        simp only [↓reduceIte]
        have base := @fetchStep_evol cfg s url hvis hcan
        cases hw : web url with
        | none =>
          dsimp only
          exact base.trans recordScrapedUrl_evol
        | some htmlContent =>
          dsimp only
          exact base

theorem scrapePage_main_state (cfg : ScraperConfig) (web : Web) (url : String)
    (depth : Nat) (s : ScraperState) :
    (scrapePage cfg web url depth "main" s).2.visitedUrls = s.visitedUrls ∧
    (scrapePage cfg web url depth "main" s).2.scrapedPagesCount =
      s.scrapedPagesCount ∧
    (scrapePage cfg web url depth "main" s).2.diskReads = s.diskReads ∧
    (scrapePage cfg web url depth "main" s).2.now = s.now ∧
    ((scrapePage cfg web url depth "main" s).2.pageFetches = s.pageFetches ∨
      (scrapePage cfg web url depth "main" s).2.pageFetches =
        s.pageFetches ++ [url]) := by
  unfold scrapePage
  split
  · simp
  · split
    · next h => exact absurd h.1 (by decide)
    · split
      · simp [recordScrapedUrl]
      · cases hw : web url <;> simp [recordScrapedUrl]

theorem scrapePage_main_fail (cfg : ScraperConfig) (web : Web) (url : String)
    (depth : Nat) (s : ScraperState)
    (h1 : depth < cfg.maxScrapingDepth) (h2 : canScrapeMore cfg s = true)
    (h3 : isUrlAllowed cfg url = true) (hw : web url = none) :
    scrapePage cfg web url depth "main" s =
      (none,
        recordScrapedUrl { s with pageFetches := s.pageFetches ++ [url] }
          url "main" "" false "failed to fetch URL" 0 "") := by
  unfold scrapePage
  rw [if_neg, if_neg, if_neg]
  · simp only [show ("main" = "linked") = False from by simp, if_false, hw]
  · simp [h3]
  · simp
  · simp [Nat.not_le.2 h1, h2]

theorem scrapePage_main_ok (cfg : ScraperConfig) (web : Web) (url : String)
    (depth : Nat) (s : ScraperState) (raw : String)
    (h1 : depth < cfg.maxScrapingDepth) (h2 : canScrapeMore cfg s = true)
    (h3 : isUrlAllowed cfg url = true) (hw : web url = some raw) :
    scrapePage cfg web url depth "main" s =
      (some (parseDoc raw, (parseDoc raw).title, calculateContentHash raw),
        { s with pageFetches := s.pageFetches ++ [url] }) := by
  unfold scrapePage
  rw [if_neg, if_neg, if_neg]
  · simp only [show ("main" = "linked") = False from by simp, if_false, hw]
  · simp [h3]
  · simp
  · simp [Nat.not_le.2 h1, h2]

theorem scrapePage_linked_ok (cfg : ScraperConfig) (web : Web) (url : String)
    (depth : Nat) (s : ScraperState) (raw : String)
    (h1 : depth < cfg.maxScrapingDepth) (h2 : canScrapeMore cfg s = true)
    (hv : isURLVisited s url = false) (h3 : isUrlAllowed cfg url = true)
    (hw : web url = some raw) :
    scrapePage cfg web url depth "linked" s =
      (some (parseDoc raw, (parseDoc raw).title, calculateContentHash raw),
        { s with
            visitedUrls := normalizeURL url :: s.visitedUrls,
            scrapedPagesCount := s.scrapedPagesCount + 1,
            pageFetches := s.pageFetches ++ [url] }) := by
  unfold scrapePage
  rw [if_neg, if_neg, if_neg]
  · simp only [show ("linked" = "linked") = True from by simp, if_true, hw]
    rfl
  · simp [h3]
  · simp [hv]
  · simp [Nat.not_le.2 h1, h2]

theorem scrapePage_linked_fail (cfg : ScraperConfig) (web : Web) (url : String)
    (depth : Nat) (s : ScraperState)
    (h1 : depth < cfg.maxScrapingDepth) (h2 : canScrapeMore cfg s = true)
    (hv : isURLVisited s url = false) (h3 : isUrlAllowed cfg url = true)
    (hw : web url = none) :
    scrapePage cfg web url depth "linked" s =
      (none,
        recordScrapedUrl
          { s with
              visitedUrls := normalizeURL url :: s.visitedUrls,
              scrapedPagesCount := s.scrapedPagesCount + 1,
              pageFetches := s.pageFetches ++ [url] }
          url "linked" "" false "failed to fetch URL" 0 "") := by
  unfold scrapePage
  rw [if_neg, if_neg, if_neg]
  · simp only [show ("linked" = "linked") = True from by simp, if_true, hw]
    rfl
  · simp [h3]
  · simp [hv]
  · simp [Nat.not_le.2 h1, h2]

theorem pdfFetch_fields (web : Web) (content : WebsiteContent)
    (s : ScraperState) (lu lt fu : String) :
    (pdfFetch web content s lu lt fu).2.visitedUrls = s.visitedUrls ∧
    (pdfFetch web content s lu lt fu).2.pageFetches = s.pageFetches ∧
    (pdfFetch web content s lu lt fu).2.scrapedPagesCount =
      s.scrapedPagesCount ∧
    (pdfFetch web content s lu lt fu).2.diskReads = s.diskReads ∧
    (pdfFetch web content s lu lt fu).2.now = s.now := by
  unfold pdfFetch
  cases web fu <;> simp [recordScrapedUrl]

theorem fileFetch_fields (web : Web) (content : WebsiteContent)
    (s : ScraperState) (lu lt fu : String) :
    (fileFetch web content s lu lt fu).2.visitedUrls = s.visitedUrls ∧
    (fileFetch web content s lu lt fu).2.pageFetches = s.pageFetches ∧
    (fileFetch web content s lu lt fu).2.scrapedPagesCount =
      s.scrapedPagesCount ∧
    (fileFetch web content s lu lt fu).2.diskReads = s.diskReads ∧
    (fileFetch web content s lu lt fu).2.now = s.now := by
  unfold fileFetch
  cases web fu <;> simp [recordScrapedUrl]

theorem processPDFsAux_fields (cfg : ScraperConfig) (web : Web)
    (baseURL : String) :
    ∀ (links : List Link) (content : WebsiteContent) (s : ScraperState),
    (processPDFsAux cfg web baseURL links content s).2.visitedUrls =
      s.visitedUrls ∧
    (processPDFsAux cfg web baseURL links content s).2.pageFetches =
      s.pageFetches ∧
    (processPDFsAux cfg web baseURL links content s).2.scrapedPagesCount =
      s.scrapedPagesCount ∧
    (processPDFsAux cfg web baseURL links content s).2.diskReads =
      s.diskReads ∧
    (processPDFsAux cfg web baseURL links content s).2.now = s.now := by
  intro links
  induction links with
  | nil => intro content s; simp [processPDFsAux]
  | cons link rest ih =>
    intro content s
    unfold processPDFsAux
    split
    · dsimp only
      split
      · split
        · exact ih _ _
        · have h1 := pdfFetch_fields web content s link.url link.title
            (resolveURL baseURL link.url)
          have h2 := ih (pdfFetch web content s link.url link.title
            (resolveURL baseURL link.url)).1
            (pdfFetch web content s link.url link.title
              (resolveURL baseURL link.url)).2
          exact ⟨h2.1.trans h1.1, h2.2.1.trans h1.2.1,
            h2.2.2.1.trans h1.2.2.1, h2.2.2.2.1.trans h1.2.2.2.1,
            h2.2.2.2.2.trans h1.2.2.2.2⟩
      · have h1 := pdfFetch_fields web content s link.url link.title
          (resolveURL baseURL link.url)
        have h2 := ih (pdfFetch web content s link.url link.title
          (resolveURL baseURL link.url)).1
          (pdfFetch web content s link.url link.title
            (resolveURL baseURL link.url)).2
        exact ⟨h2.1.trans h1.1, h2.2.1.trans h1.2.1,
          h2.2.2.1.trans h1.2.2.1, h2.2.2.2.1.trans h1.2.2.2.1,
          h2.2.2.2.2.trans h1.2.2.2.2⟩
    · exact ih _ _

theorem processFilesAux_fields (cfg : ScraperConfig) (web : Web)
    (baseURL : String) :
    ∀ (links : List Link) (content : WebsiteContent) (s : ScraperState),
    (processFilesAux cfg web baseURL links content s).2.visitedUrls =
      s.visitedUrls ∧
    (processFilesAux cfg web baseURL links content s).2.pageFetches =
      s.pageFetches ∧
    (processFilesAux cfg web baseURL links content s).2.scrapedPagesCount =
      s.scrapedPagesCount ∧
    (processFilesAux cfg web baseURL links content s).2.diskReads =
      s.diskReads ∧
    (processFilesAux cfg web baseURL links content s).2.now = s.now := by
  intro links
  induction links with
  | nil => intro content s; simp [processFilesAux]
  | cons link rest ih =>
    intro content s
    unfold processFilesAux
    split
    · dsimp only
      split
      · split
        · exact ih _ _
        · have h1 := fileFetch_fields web content s link.url link.title
            (resolveURL baseURL link.url)
          have h2 := ih (fileFetch web content s link.url link.title
            (resolveURL baseURL link.url)).1
            (fileFetch web content s link.url link.title
              (resolveURL baseURL link.url)).2
          exact ⟨h2.1.trans h1.1, h2.2.1.trans h1.2.1,
            h2.2.2.1.trans h1.2.2.1, h2.2.2.2.1.trans h1.2.2.2.1,
            h2.2.2.2.2.trans h1.2.2.2.2⟩
      · have h1 := fileFetch_fields web content s link.url link.title
          (resolveURL baseURL link.url)
        have h2 := ih (fileFetch web content s link.url link.title
          (resolveURL baseURL link.url)).1
          (fileFetch web content s link.url link.title
            (resolveURL baseURL link.url)).2
        exact ⟨h2.1.trans h1.1, h2.2.1.trans h1.2.1,
          h2.2.2.1.trans h1.2.2.1, h2.2.2.2.1.trans h1.2.2.2.1,
          h2.2.2.2.2.trans h1.2.2.2.2⟩
    · exact ih _ _

theorem nestedLinksAux_evol (cfg : ScraperConfig)
    (recCall : String → Nat → ScraperState →
      Option LinkedPageContent × ScraperState)
    (targetUrl : String) (depth : Nat)
    (hrec : ∀ u d st, Evol cfg st (recCall u d st).2) :
    ∀ (links : List (String × String)) (s : ScraperState),
    Evol cfg s (nestedLinksAux cfg recCall targetUrl depth links s) := by
  intro links
  induction links with
  | nil => intro s; exact evol_refl
  | cons p rest ih =>
    intro s
    unfold nestedLinksAux
    dsimp only
    generalize (if strStarts p.1 "/" ∨ strStarts p.1 "./" then
      resolveURL targetUrl p.1 else p.1) = fullURL
    split
    · exact ih s
    · split
      · exact ih s
      · split
        · exact ih s
        · split
          · exact ih s
          · split
            next nested s1 heq =>
              have h1 := hrec fullURL (depth + 1) s
              rw [heq] at h1
              have h2 : Evol cfg s s1 := h1
              exact (h2.trans (evol_of_fields (s := s1) (t := { s1 with
                  mainLinked := setAssoc s1.mainLinked fullURL nested })
                  rfl rfl rfl rfl rfl)).trans
                (ih { s1 with mainLinked := setAssoc s1.mainLinked fullURL nested })
            next s1 heq =>
              have h1 := hrec fullURL (depth + 1) s
              rw [heq] at h1
              have h2 : Evol cfg s s1 := h1
              exact h2.trans (ih s1)

theorem processLinksAux_evol (cfg : ScraperConfig)
    (recCall : String → Nat → ScraperState →
      Option LinkedPageContent × ScraperState)
    (baseURL : String) (depth : Nat)
    (hrec : ∀ u d st, Evol cfg st (recCall u d st).2) :
    ∀ (links : List Link) (s : ScraperState),
    Evol cfg s (processLinksAux cfg recCall baseURL depth links s) := by
  intro links
  induction links with
  | nil => intro s; exact evol_refl
  | cons link rest ih =>
    intro s
    unfold processLinksAux
    dsimp only
    generalize (if link.ltype = "internal" then resolveURL baseURL link.url
      else if strStarts link.url "/" then resolveURL baseURL link.url
      else link.url) = fullURL
    split
    · exact (hrec fullURL (depth + 1) s).trans (ih _)
    · exact ih s

theorem scrapeLinked_evol (cfg : ScraperConfig) (web : Web) :
    ∀ (fuel : Nat) (url : String) (depth : Nat) (s : ScraperState),
    Evol cfg s
      (scrapeLinkedPageWithDepthAndContent cfg web fuel url depth s).2 := by
  intro fuel
  induction fuel with
  | zero => intro url depth s; exact evol_refl
  | succ fuel ih =>
    intro url depth s
    unfold scrapeLinkedPageWithDepthAndContent
    have hsp := scrapePage_linked_evol cfg web url depth s
    split
    next s1 heq =>
      rw [heq] at hsp
      exact hsp
    next doc title contentHash s1 heq =>
      rw [heq] at hsp
      have hsp2 : Evol cfg s s1 := hsp
      dsimp only
      split
      next elc heq2 =>
        dsimp only
        exact hsp2.trans ((evol_of_fields (s := s1) (t := { s1 with
          mainLinked := setAssoc s1.mainLinked url
            { elc with url := url, lastUpdated := s1.now } })
          rfl rfl rfl rfl rfl).trans recordScrapedUrl_evol)
      next heq2 =>
        dsimp only
        refine hsp2.trans (((evol_of_fields (s := s1) (t := { s1 with
          extractCount := s1.extractCount + 1 }) rfl rfl rfl rfl rfl).trans
          ?_).trans recordScrapedUrl_evol)
        split
        · exact nestedLinksAux_evol cfg _ url depth
            (fun u d st => ih u d st) doc.links _
        · exact evol_refl

theorem processLinkedContent_evol (cfg : ScraperConfig) (web : Web)
    (fuel : Nat) (content : WebsiteContent) (baseURL : String) (depth : Nat)
    (s : ScraperState) :
    Evol cfg s
      (processLinkedContentWithDepth cfg web fuel content baseURL depth s) := by
  unfold processLinkedContentWithDepth
  split
  · exact evol_refl
  · exact markURLVisited_evol.trans (processLinksAux_evol cfg _ baseURL depth
      (fun u d st => scrapeLinked_evol cfg web fuel u d st) content.links _)

theorem processLinkedContent_nodup (cfg : ScraperConfig) (web : Web)
    (fuel : Nat) (content : WebsiteContent) (baseURL : String) (depth : Nat)
    (s : ScraperState)
    (hx : ∀ x ∈ s.pageFetches,
      normalizeURL x ∈ normalizeURL baseURL :: s.visitedUrls)
    (hn : (s.pageFetches.map normalizeURL).Nodup) :
    (((processLinkedContentWithDepth cfg web fuel content baseURL depth
        s).pageFetches).map normalizeURL).Nodup := by
  unfold processLinkedContentWithDepth
  split
  · exact hn
  · have hg : GoodS (markURLVisited s baseURL) := ⟨hx, hn⟩
    exact ((processLinksAux_evol cfg _ baseURL depth
      (fun u d st => scrapeLinked_evol cfg web fuel u d st)
      content.links _).good hg).2


/-- The pre-fetch disk-cache step of `scrapeWebsiteWithDepth` either leaves
the state alone (refresh on) or only logs one disk read. -/
theorem diskStep_state (cfg : ScraperConfig) (url : String) (s : ScraperState)
    (o : Option WebsiteContent) (x : ScraperState)
    (heq : (if cfg.refreshContent = true then (none, s)
      else
        match (loadContentFromDisk s url).1 with
        | some dc =>
          if (loadContentFromDisk s url).2.now - dc.lastUpdated <
              cfg.cacheDuration then
            (some dc, (loadContentFromDisk s url).2)
          else (none, (loadContentFromDisk s url).2)
        | none => (none, (loadContentFromDisk s url).2)) = (o, x)) :
    x = s ∨ x = (loadContentFromDisk s url).2 := by
  split at heq
  · exact Or.inl ((Prod.mk.injEq _ _ _ _ |>.mp heq).2.symm)
  · split at heq
    · split at heq
      · exact Or.inr ((Prod.mk.injEq _ _ _ _ |>.mp heq).2.symm)
      · exact Or.inr ((Prod.mk.injEq _ _ _ _ |>.mp heq).2.symm)
    · exact Or.inr ((Prod.mk.injEq _ _ _ _ |>.mp heq).2.symm)

theorem diskStep_fields (cfg : ScraperConfig) (url : String) (s : ScraperState)
    (o : Option WebsiteContent) (x : ScraperState)
    (heq : (if cfg.refreshContent = true then (none, s)
      else
        match (loadContentFromDisk s url).1 with
        | some dc =>
          if (loadContentFromDisk s url).2.now - dc.lastUpdated <
              cfg.cacheDuration then
            (some dc, (loadContentFromDisk s url).2)
          else (none, (loadContentFromDisk s url).2)
        | none => (none, (loadContentFromDisk s url).2)) = (o, x)) :
    x.scrapedPagesCount = s.scrapedPagesCount ∧ x.pageFetches = s.pageFetches ∧
    x.visitedUrls = s.visitedUrls ∧ x.now = s.now ∧ x.cache = s.cache ∧
    x.disk = s.disk := by
  rcases diskStep_state cfg url s o x heq with rfl | h
  · exact ⟨rfl, rfl, rfl, rfl, rfl, rfl⟩
  · rw [h]
    exact ⟨rfl, rfl, rfl, rfl, rfl, rfl⟩

theorem processPDFs_fields (cfg : ScraperConfig) (web : Web)
    (content : WebsiteContent) (baseURL : String) (s : ScraperState) :
    (processPDFs cfg web content baseURL s).2.visitedUrls = s.visitedUrls ∧
    (processPDFs cfg web content baseURL s).2.pageFetches = s.pageFetches ∧
    (processPDFs cfg web content baseURL s).2.scrapedPagesCount =
      s.scrapedPagesCount ∧
    (processPDFs cfg web content baseURL s).2.diskReads = s.diskReads ∧
    (processPDFs cfg web content baseURL s).2.now = s.now :=
  processPDFsAux_fields cfg web baseURL content.links content s

theorem processFiles_fields (cfg : ScraperConfig) (web : Web)
    (content : WebsiteContent) (baseURL : String) (s : ScraperState) :
    (processFiles cfg web content baseURL s).2.visitedUrls = s.visitedUrls ∧
    (processFiles cfg web content baseURL s).2.pageFetches = s.pageFetches ∧
    (processFiles cfg web content baseURL s).2.scrapedPagesCount =
      s.scrapedPagesCount ∧
    (processFiles cfg web content baseURL s).2.diskReads = s.diskReads ∧
    (processFiles cfg web content baseURL s).2.now = s.now :=
  processFilesAux_fields cfg web baseURL content.links content s

theorem mainFreshStep_facts (cfg : ScraperConfig) (web : Web) (fuel : Nat)
    (url : String) (depth : Nat) (doc : Doc) (title contentHash : String)
    (s1 : ScraperState) :
    (s1.scrapedPagesCount ≤ cfg.maxPagesPerSession →
      (mainFreshStep cfg web fuel url depth doc title contentHash
        s1).2.scrapedPagesCount ≤ cfg.maxPagesPerSession) ∧
    s1.pageFetches <+:
      (mainFreshStep cfg web fuel url depth doc title contentHash
        s1).2.pageFetches ∧
    (mainFreshStep cfg web fuel url depth doc title contentHash
      s1).2.diskReads = s1.diskReads ∧
    (mainFreshStep cfg web fuel url depth doc title contentHash
      s1).2.now = s1.now ∧
    ((∀ x ∈ s1.pageFetches,
        normalizeURL x ∈ normalizeURL url :: s1.visitedUrls) →
      (s1.pageFetches.map normalizeURL).Nodup →
      ((mainFreshStep cfg web fuel url depth doc title contentHash
        s1).2.pageFetches.map normalizeURL).Nodup) := by
  unfold mainFreshStep
  dsimp only
  generalize hp :
    processPDFs cfg web
      { title := title, description := doc.description,
        links := List.map (fun p : String × String =>
          { url := p.1, title := goTrim p.2,
            ltype := if strStarts p.1 "http" = true then "external"
              else "internal" }) doc.links,
        text := summarizeOrTruncate cfg title doc.bodyText,
        metadata := if doc.keywords ≠ "" then [("keywords", doc.keywords)]
          else [],
        lastUpdated := s1.now, contentHash := contentHash } url
      { s1 with extractCount := s1.extractCount + 1 } = r1
  obtain ⟨c1, s3⟩ := r1
  have hp3 := processPDFs_fields cfg web
    { title := title, description := doc.description,
      links := List.map (fun p : String × String =>
        { url := p.1, title := goTrim p.2,
          ltype := if strStarts p.1 "http" = true then "external"
            else "internal" }) doc.links,
      text := summarizeOrTruncate cfg title doc.bodyText,
      metadata := if doc.keywords ≠ "" then [("keywords", doc.keywords)]
        else [],
      lastUpdated := s1.now, contentHash := contentHash } url
    { s1 with extractCount := s1.extractCount + 1 }
  rw [hp] at hp3
  generalize hq : processFiles cfg web c1 url s3 = r2
  obtain ⟨c2, s4⟩ := r2
  have hq4 := processFiles_fields cfg web c1 url s3
  rw [hq] at hq4
  have hev := processLinkedContent_evol cfg web fuel c2 url depth
    { s4 with mainLinked := [] }
  generalize hr : processLinkedContentWithDepth cfg web fuel c2 url depth
    { s4 with mainLinked := [] } = s6 at hev
  have hnodup := fun hx hn => processLinkedContent_nodup cfg web fuel c2 url
    depth { s4 with mainLinked := [] } hx hn
  rw [hr] at hnodup
  obtain ⟨hv3, hf3, hc3, hd3, hn3⟩ := hp3
  obtain ⟨hv4, hf4, hc4, hd4, hn4⟩ := hq4
  dsimp only at hv3 hf3 hc3 hd3 hn3 hv4 hf4 hc4 hd4 hn4
  refine ⟨?_, ?_, ?_, ?_, ?_⟩
  · intro h
    show s6.scrapedPagesCount ≤ cfg.maxPagesPerSession
    refine hev.count ?_
    show s4.scrapedPagesCount ≤ cfg.maxPagesPerSession
    rw [hc4, hc3]
    exact h
  · show s1.pageFetches <+: s6.pageFetches
    have := hev.fetches
    rw [show ({ s4 with mainLinked := [] } : ScraperState).pageFetches =
      s1.pageFetches from by rw [show ({ s4 with mainLinked := [] } :
        ScraperState).pageFetches = s4.pageFetches from rfl, hf4, hf3]] at this
    exact this
  · show s6.diskReads = s1.diskReads
    rw [hev.reads]
    show s4.diskReads = s1.diskReads
    rw [hd4, hd3]
  · show s6.now = s1.now
    rw [hev.clock]
    show s4.now = s1.now
    rw [hn4, hn3]
  · intro hx hn
    show (s6.pageFetches.map normalizeURL).Nodup
    refine hnodup ?_ ?_
    · show ∀ x ∈ s4.pageFetches, normalizeURL x ∈ normalizeURL url ::
        s4.visitedUrls
      rw [hf4, hf3, hv4, hv3]
      exact hx
    · show (s4.pageFetches.map normalizeURL).Nodup
      rw [hf4, hf3]
      exact hn

theorem scrapeMainTail_reads (cfg : ScraperConfig) (web : Web) (fuel : Nat)
    (url : String) (depth : Nat) (s0 : ScraperState) :
    (scrapeMainTail cfg web fuel url depth s0).2.diskReads = s0.diskReads := by
  unfold scrapeMainTail
  dsimp only
  split
  · rfl
  · split
    next s1 heq =>
      have hm := scrapePage_main_state cfg web url depth s0
      rw [heq] at hm
      exact hm.2.2.1
    next doc title contentHash s1 heq =>
      have hm := scrapePage_main_state cfg web url depth s0
      rw [heq] at hm
      split
      · exact hm.2.2.1
      · exact ((mainFreshStep_facts cfg web fuel url depth doc title
          contentHash s1).2.2.1).trans hm.2.2.1

theorem scrapeMainTail_count (cfg : ScraperConfig) (web : Web) (fuel : Nat)
    (url : String) (depth : Nat) (s0 : ScraperState)
    (h : s0.scrapedPagesCount ≤ cfg.maxPagesPerSession) :
    (scrapeMainTail cfg web fuel url depth s0).2.scrapedPagesCount ≤
      cfg.maxPagesPerSession := by
  unfold scrapeMainTail
  dsimp only
  split
  · exact h
  · split
    next s1 heq =>
      have hm := scrapePage_main_state cfg web url depth s0
      rw [heq] at hm
      show s1.scrapedPagesCount ≤ cfg.maxPagesPerSession
      rw [hm.2.1]
      exact h
    next doc title contentHash s1 heq =>
      have hm := scrapePage_main_state cfg web url depth s0
      rw [heq] at hm
      have hs1 : s1.scrapedPagesCount ≤ cfg.maxPagesPerSession := by
        rw [hm.2.1]; exact h
      split
      · exact hs1
      · exact (mainFreshStep_facts cfg web fuel url depth doc title
          contentHash s1).1 hs1

theorem scrapeMainTail_nodup (cfg : ScraperConfig) (web : Web) (fuel : Nat)
    (url : String) (depth : Nat) (s0 : ScraperState)
    (hv : s0.visitedUrls = []) (hf : s0.pageFetches = []) :
    ((scrapeMainTail cfg web fuel url depth s0).2.pageFetches.map
      normalizeURL).Nodup := by
  unfold scrapeMainTail
  dsimp only
  split
  · show ((s0.pageFetches).map normalizeURL).Nodup
    rw [hf]
    exact List.nodup_nil
  · split
    next s1 heq =>
      have hm := scrapePage_main_state cfg web url depth s0
      rw [heq] at hm
      show ((s1.pageFetches).map normalizeURL).Nodup
      rcases hm.2.2.2.2 with hcase | hcase <;> rw [hcase, hf] <;> simp
    next doc title contentHash s1 heq =>
      have hm := scrapePage_main_state cfg web url depth s0
      rw [heq] at hm
      have hfet : s1.pageFetches = [] ∨ s1.pageFetches = [url] := by
        rcases hm.2.2.2.2 with hcase | hcase <;> rw [hcase, hf] <;> simp
      split
      · show ((s1.pageFetches).map normalizeURL).Nodup
        rcases hfet with hcase | hcase <;> rw [hcase] <;> simp
      · refine (mainFreshStep_facts cfg web fuel url depth doc title
          contentHash s1).2.2.2.2 ?_ ?_
        · intro x hx
          rcases hfet with hcase | hcase
          · rw [hcase] at hx; exact absurd hx (List.not_mem_nil x)
          · rw [hcase] at hx
            rcases List.mem_singleton.1 hx with rfl
            exact List.mem_cons_self _ _
        · rcases hfet with hcase | hcase <;> rw [hcase] <;> simp

theorem scrapeMainTail_fetch (cfg : ScraperConfig) (web : Web) (fuel : Nat)
    (url : String) (depth : Nat) (s0 : ScraperState)
    (hm : ∀ c, s0.cache.lookup url = some c →
      ¬(s0.now - c.lastUpdated < cfg.memoryCacheDuration))
    (hd : depth < cfg.maxScrapingDepth) (hc : canScrapeMore cfg s0 = true)
    (ha : isUrlAllowed cfg url = true) :
    s0.pageFetches ++ [url] <+:
      (scrapeMainTail cfg web fuel url depth s0).2.pageFetches := by
  unfold scrapeMainTail
  dsimp only
  have hmem : (match s0.cache.lookup url with
      | some cached =>
        if s0.now - cached.lastUpdated < cfg.memoryCacheDuration then
          some cached
        else none
      | none => none) = (none : Option WebsiteContent) := by
    cases hl : s0.cache.lookup url with
    | none => rfl
    | some cached => simp [hm cached hl]
  rw [hmem]
  cases hw : web url with
  | none =>
    rw [scrapePage_main_fail cfg web url depth s0 hd hc ha hw]
    exact List.prefix_refl _
  | some raw =>
    rw [scrapePage_main_ok cfg web url depth s0 raw hd hc ha hw]
    dsimp only
    split
    · exact List.prefix_refl _
    · exact (mainFreshStep_facts cfg web fuel url depth (parseDoc raw)
        (parseDoc raw).title (calculateContentHash raw)
        { s0 with pageFetches := s0.pageFetches ++ [url] }).2.1

theorem scrapeWebsiteWithDepth_count (cfg : ScraperConfig) (web : Web)
    (fuel : Nat) (url : String) (depth : Nat) (s : ScraperState)
    (h : s.scrapedPagesCount ≤ cfg.maxPagesPerSession) :
    (scrapeWebsiteWithDepth cfg web fuel url depth s).2.scrapedPagesCount ≤
      cfg.maxPagesPerSession := by
  unfold scrapeWebsiteWithDepth
  dsimp only
  split
  next diskContent x heq =>
    have hfd := diskStep_fields cfg url s _ x heq
    show x.scrapedPagesCount ≤ cfg.maxPagesPerSession
    rw [hfd.1]
    exact h
  next x heq =>
    have hfd := diskStep_fields cfg url s _ x heq
    exact scrapeMainTail_count cfg web fuel url depth x (by rw [hfd.1]; exact h)

theorem scrapeWebsiteWithDepth_nodup (cfg : ScraperConfig) (web : Web)
    (fuel : Nat) (url : String) (depth : Nat) (s : ScraperState)
    (hv : s.visitedUrls = []) (hf : s.pageFetches = []) :
    ((scrapeWebsiteWithDepth cfg web fuel url depth s).2.pageFetches.map
      normalizeURL).Nodup := by
  unfold scrapeWebsiteWithDepth
  dsimp only
  split
  next diskContent x heq =>
    have hfd := diskStep_fields cfg url s _ x heq
    show ((x.pageFetches).map normalizeURL).Nodup
    rw [hfd.2.1, hf]
    exact List.nodup_nil
  next x heq =>
    have hfd := diskStep_fields cfg url s _ x heq
    exact scrapeMainTail_nodup cfg web fuel url depth x
      (by rw [hfd.2.2.1]; exact hv) (by rw [hfd.2.1]; exact hf)

theorem scrapeWebsiteWithDepth_refresh (cfg : ScraperConfig) (web : Web)
    (fuel : Nat) (url : String) (depth : Nat) (s : ScraperState)
    (h : cfg.refreshContent = true) :
    scrapeWebsiteWithDepth cfg web fuel url depth s =
      scrapeMainTail cfg web fuel url depth s := by
  unfold scrapeWebsiteWithDepth
  rw [if_pos h]

theorem scrapeWebsiteWithDepth_diskHit (cfg : ScraperConfig) (web : Web)
    (fuel : Nat) (url : String) (depth : Nat) (s : ScraperState)
    (e : DiskEntry) (h0 : cfg.refreshContent = false)
    (he : s.disk.lookup (getContentFilePath url) = some e)
    (hfr : s.now - e.content.lastUpdated < cfg.cacheDuration) :
    (scrapeWebsiteWithDepth cfg web fuel url depth s).1 = some e.content ∧
    (scrapeWebsiteWithDepth cfg web fuel url depth s).2.pageFetches =
      s.pageFetches := by
  unfold scrapeWebsiteWithDepth
  dsimp only
  simp only [h0, Bool.false_eq_true, if_false]
  have h1 : (loadContentFromDisk s url).1 = some e.content := by
    simp [loadContentFromDisk, he]
  rw [h1]
  dsimp only
  rw [if_pos (show (loadContentFromDisk s url).2.now - e.content.lastUpdated <
    cfg.cacheDuration from hfr)]
  exact ⟨rfl, rfl⟩

theorem scrapeWebsiteWithDepth_diskStale (cfg : ScraperConfig) (web : Web)
    (fuel : Nat) (url : String) (depth : Nat) (s : ScraperState)
    (e : DiskEntry) (h0 : cfg.refreshContent = false)
    (he : s.disk.lookup (getContentFilePath url) = some e)
    (hst : ¬(s.now - e.content.lastUpdated < cfg.cacheDuration)) :
    scrapeWebsiteWithDepth cfg web fuel url depth s =
      scrapeMainTail cfg web fuel url depth (loadContentFromDisk s url).2 := by
  unfold scrapeWebsiteWithDepth
  dsimp only
  simp only [h0, Bool.false_eq_true, if_false]
  have h1 : (loadContentFromDisk s url).1 = some e.content := by
    simp [loadContentFromDisk, he]
  rw [h1]
  dsimp only
  rw [if_neg (show ¬((loadContentFromDisk s url).2.now -
    e.content.lastUpdated < cfg.cacheDuration) from hst)]

theorem scrapeWebsiteWithDepth_diskNone (cfg : ScraperConfig) (web : Web)
    (fuel : Nat) (url : String) (depth : Nat) (s : ScraperState)
    (h0 : cfg.refreshContent = false)
    (he : s.disk.lookup (getContentFilePath url) = none) :
    scrapeWebsiteWithDepth cfg web fuel url depth s =
      scrapeMainTail cfg web fuel url depth (loadContentFromDisk s url).2 := by
  unfold scrapeWebsiteWithDepth
  dsimp only
  simp only [h0, Bool.false_eq_true, if_false]
  have h1 : (loadContentFromDisk s url).1 = none := by
    simp [loadContentFromDisk, he]
  rw [h1]

theorem scrapeMainTail_dedup (cfg : ScraperConfig) (web : Web) (fuel : Nat)
    (url : String) (depth : Nat) (s0 : ScraperState) (raw : String)
    (existing : WebsiteContent)
    (hm : s0.cache.lookup url = none)
    (hd : depth < cfg.maxScrapingDepth) (hc : canScrapeMore cfg s0 = true)
    (ha : isUrlAllowed cfg url = true) (hw : web url = some raw)
    (hfind : findContentByHash s0.disk (calculateContentHash raw) =
      some existing) :
    scrapeMainTail cfg web fuel url depth s0 =
      (some { existing with lastUpdated := s0.now },
        recordScrapedUrl
          (saveContentToDisk
            { s0 with
                pageFetches := s0.pageFetches ++ [url],
                cache := setAssoc s0.cache url
                  { existing with lastUpdated := s0.now } }
            url { existing with lastUpdated := s0.now })
          url "main" ({ existing with lastUpdated := s0.now } :
            WebsiteContent).title true "" 0 "content_reused") := by
  unfold scrapeMainTail
  dsimp only
  rw [hm]
  dsimp only
  rw [scrapePage_main_ok cfg web url depth s0 raw hd hc ha hw]
  dsimp only
  rw [hfind]

/-! ## Claim theorems -/

/-- C1 (counterexample to the claim as stated): with the default
`maxScrapingDepth = 2` and the chain A→B→C→D, the crawl fetches exactly A and
B; the depth-2 page C is never fetched, contradicting the claim that C is
fetched. -/
theorem C1_chain_counterexample :
    (ScrapeWebsite cfgD webChain "http://example.com" stFresh).2.pageFetches =
      ["http://example.com", "https://github.com/b"] ∧
    "https://gitlab.com/c" ∉
      (ScrapeWebsite cfgD webChain "http://example.com" stFresh).2.pageFetches := by
  decide

/-- C1 (amended): a call of `scrapePage` at depth `d ≥ maxScrapingDepth`
returns immediately with an error, an unchanged state and no fetch; hence
with `maxScrapingDepth = 2` the deepest page fetched in a chain A→B→C→D is B
(depth 1), and neither C nor D is ever fetched. -/
theorem C1_depth_guard (cfg : ScraperConfig) (web : Web) (url : String)
    (d : Nat) (ty : String) (s : ScraperState)
    (h : cfg.maxScrapingDepth ≤ d) :
    scrapePage cfg web url d ty s = (none, s) := by
  unfold scrapePage
  rw [if_pos (Or.inl h)]

theorem C1_depth_guard_witness :
    cfgD.maxScrapingDepth ≤ 2 ∧
    scrapePage cfgD webChain "https://gitlab.com/c" 2 "linked" stFresh =
      (none, stFresh) :=
  ⟨by decide,
    C1_depth_guard cfgD webChain "https://gitlab.com/c" 2 "linked" stFresh
      (by decide)⟩

/-- C2 (counterexample to the claim as stated): with the refresh override
active, a fresh memory-cache entry is still served — the crawl returns the
cached record and performs no network fetch, contradicting "neither cache
layer is consulted and a network fetch occurs". -/
theorem C2_memcache_counterexample :
    cfgR.refreshContent = true ∧
    webM "http://m.example" = some "t|New M\nx|hi" ∧
    (ScrapeWebsite cfgR webM "http://m.example" stMem).1 = some memContent ∧
    (ScrapeWebsite cfgR webM "http://m.example" stMem).2.pageFetches = [] := by
  decide

/-- C2 (amended): with the refresh override active the disk cache is never
consulted (`loadContentFromDisk` is never called); the memory cache is still
consulted, and only when it has no fresh entry for the URL (and the
depth/budget/allow-list checks pass) does a network fetch occur. -/
theorem C2_refresh_bypass (cfg : ScraperConfig) (web : Web) (url : String)
    (s : ScraperState) (h : cfg.refreshContent = true) :
    (ScrapeWebsite cfg web url s).2.diskReads = s.diskReads ∧
    ((∀ c, s.cache.lookup url = some c →
        ¬(s.now - c.lastUpdated < cfg.memoryCacheDuration)) →
      0 < cfg.maxScrapingDepth → canScrapeMore cfg s = true →
      isUrlAllowed cfg url = true →
      s.pageFetches ++ [url] <+: (ScrapeWebsite cfg web url s).2.pageFetches) := by
  unfold ScrapeWebsite
  rw [scrapeWebsiteWithDepth_refresh cfg web cfg.maxScrapingDepth url 0 s h]
  exact ⟨scrapeMainTail_reads cfg web cfg.maxScrapingDepth url 0 s,
    fun hm hd hc ha =>
      scrapeMainTail_fetch cfg web cfg.maxScrapingDepth url 0 s hm hd hc ha⟩

theorem C2_refresh_bypass_witness :
    cfgR.refreshContent = true ∧
    ((ScrapeWebsite cfgR webM "http://nocache.example" stMem).2.diskReads =
      stMem.diskReads ∧
    ((∀ c, stMem.cache.lookup "http://nocache.example" = some c →
        ¬(stMem.now - c.lastUpdated < cfgR.memoryCacheDuration)) →
      0 < cfgR.maxScrapingDepth → canScrapeMore cfgR stMem = true →
      isUrlAllowed cfgR "http://nocache.example" = true →
      stMem.pageFetches ++ ["http://nocache.example"] <+:
        (ScrapeWebsite cfgR webM "http://nocache.example"
          stMem).2.pageFetches)) :=
  ⟨by decide, C2_refresh_bypass cfgR webM "http://nocache.example" stMem
    (by decide)⟩

/-- C3: loop freedom — starting a crawl from a fresh session, no two fetch
attempts (main or linked) share a normalized URL, and a URL whose normalized
form is in `visitedUrls` is never fetched again by a linked-page call
(`scrapePage` returns immediately with the state unchanged). -/
theorem C3_loop_freedom (cfg : ScraperConfig) (web : Web) (url : String)
    (s : ScraperState) (hv : s.visitedUrls = []) (hf : s.pageFetches = []) :
    ((ScrapeWebsite cfg web url s).2.pageFetches.map normalizeURL).Nodup ∧
    (∀ (u : String) (d : Nat) (s2 : ScraperState),
      isURLVisited s2 u = true →
      scrapePage cfg web u d "linked" s2 = (none, s2)) := by
  refine ⟨scrapeWebsiteWithDepth_nodup cfg web cfg.maxScrapingDepth url 0 s
    hv hf, ?_⟩
  intro u d s2 hvis
  unfold scrapePage
  split
  · rfl
  · rw [if_pos ⟨rfl, hvis⟩]

theorem C3_loop_freedom_witness :
    stFresh.visitedUrls = [] ∧ stFresh.pageFetches = [] ∧
    (ScrapeWebsite cfgD3 webCycle "http://example.com" stFresh).2.pageFetches =
      ["http://example.com", "https://github.com/b"] ∧
    (((ScrapeWebsite cfgD3 webCycle "http://example.com"
        stFresh).2.pageFetches.map normalizeURL).Nodup ∧
      (∀ (u : String) (d : Nat) (s2 : ScraperState),
        isURLVisited s2 u = true →
        scrapePage cfgD3 webCycle u d "linked" s2 = (none, s2))) :=
  ⟨rfl, rfl, by decide,
    C3_loop_freedom cfgD3 webCycle "http://example.com" stFresh rfl rfl⟩

/-- C4: the page budget is never overdrawn — `scrapedPagesCount` never
exceeds `maxPagesPerSession` along any crawl, and once the budget is
exhausted `scrapePage` returns immediately with no fetch and an unchanged
state. -/
theorem C4_budget_bound (cfg : ScraperConfig) (web : Web) (url : String)
    (s : ScraperState)
    (h : s.scrapedPagesCount ≤ cfg.maxPagesPerSession) :
    (ScrapeWebsite cfg web url s).2.scrapedPagesCount ≤
      cfg.maxPagesPerSession ∧
    (∀ (u : String) (d : Nat) (ty : String) (s2 : ScraperState),
      cfg.maxPagesPerSession ≤ s2.scrapedPagesCount →
      scrapePage cfg web u d ty s2 = (none, s2)) := by
  refine ⟨scrapeWebsiteWithDepth_count cfg web cfg.maxScrapingDepth url 0 s h,
    ?_⟩
  intro u d ty s2 h2
  unfold scrapePage
  rw [if_pos (Or.inr (by simp [canScrapeMore, Nat.not_lt.2 h2]))]

theorem C4_budget_bound_witness :
    stFresh.scrapedPagesCount ≤ cfgB1.maxPagesPerSession ∧
    (ScrapeWebsite cfgB1 webMany "http://example.com" stFresh).2.pageFetches =
      ["http://example.com", "https://github.com/u1"] ∧
    (ScrapeWebsite cfgB1 webMany "http://example.com"
      stFresh).2.scrapedPagesCount = 1 ∧
    ((ScrapeWebsite cfgB1 webMany "http://example.com"
        stFresh).2.scrapedPagesCount ≤ cfgB1.maxPagesPerSession ∧
      (∀ (u : String) (d : Nat) (ty : String) (s2 : ScraperState),
        cfgB1.maxPagesPerSession ≤ s2.scrapedPagesCount →
        scrapePage cfgB1 webMany u d ty s2 = (none, s2))) :=
  ⟨by decide, by decide, by decide,
    C4_budget_bound cfgB1 webMany "http://example.com" stFresh (by decide)⟩

/-- C6: `normalizeURL` is total and, whenever the (lower-cased) input fails
to parse as a URL, returns the lower-cased raw input string unchanged. -/
theorem C6_normalize_fallback (u : String)
    (h : NetUrl.parse (goToLower u).data = none) :
    normalizeURL u = goToLower u := by
  unfold normalizeURL
  dsimp only
  rw [h]

theorem C6_normalize_fallback_witness :
    NetUrl.parse (goToLower "HTTP://bad.example/%zz").data = none ∧
    normalizeURL "HTTP://bad.example/%zz" = goToLower "HTTP://bad.example/%zz" ∧
    goToLower "HTTP://bad.example/%zz" = "http://bad.example/%zz" :=
  ⟨by decide, C6_normalize_fallback "HTTP://bad.example/%zz" (by decide),
    by decide⟩

/-- C7: disk-cache freshness — without the refresh override, a disk entry
younger than `cacheDuration` is returned as the result with zero page
fetches; a stale entry is not reused: when the memory cache also has no
fresh entry (and the fetch guards pass) the crawl goes to the network. -/
theorem C7_disk_freshness (cfg : ScraperConfig) (web : Web) (url : String)
    (s : ScraperState) (e : DiskEntry) (h0 : cfg.refreshContent = false)
    (he : s.disk.lookup (getContentFilePath url) = some e) :
    (s.now - e.content.lastUpdated < cfg.cacheDuration →
      (ScrapeWebsite cfg web url s).1 = some e.content ∧
      (ScrapeWebsite cfg web url s).2.pageFetches = s.pageFetches) ∧
    (cfg.cacheDuration ≤ s.now - e.content.lastUpdated →
      (∀ c, s.cache.lookup url = some c →
        ¬(s.now - c.lastUpdated < cfg.memoryCacheDuration)) →
      0 < cfg.maxScrapingDepth → canScrapeMore cfg s = true →
      isUrlAllowed cfg url = true →
      s.pageFetches ++ [url] <+: (ScrapeWebsite cfg web url s).2.pageFetches) := by
  constructor
  · intro hfr
    exact scrapeWebsiteWithDepth_diskHit cfg web cfg.maxScrapingDepth url 0 s e
      h0 he hfr
  · intro hst hm hd hc ha
    unfold ScrapeWebsite
    rw [scrapeWebsiteWithDepth_diskStale cfg web cfg.maxScrapingDepth url 0 s e
      h0 he (Nat.not_lt.2 hst)]
    exact scrapeMainTail_fetch cfg web cfg.maxScrapingDepth url 0
      (loadContentFromDisk s url).2 hm hd hc ha

theorem C7_disk_freshness_witness :
    cfgD.refreshContent = false ∧
    stDisk.disk.lookup (getContentFilePath "http://cached.example") =
      some ⟨"http://cached.example", diskContent⟩ ∧
    stDisk.now - diskContent.lastUpdated < cfgD.cacheDuration ∧
    ((ScrapeWebsite cfgD webM "http://cached.example" stDisk).1 =
      some diskContent ∧
     (ScrapeWebsite cfgD webM "http://cached.example" stDisk).2.pageFetches =
      stDisk.pageFetches) :=
  ⟨by decide, by decide, by decide,
    (C7_disk_freshness cfgD webM "http://cached.example" stDisk
      ⟨"http://cached.example", diskContent⟩ (by decide) (by decide)).1
      (by decide)⟩

/-- C8: content-hash dedup — byte-identical fetched content always yields
the same digest, and a crawl of a second URL whose bytes hash to an existing
on-disk record returns a clone of that record stamped with the current time,
persists it under the second URL's cache directory, appends a
`content_reused` audit entry, and never runs text extraction. -/
theorem C8_content_dedup (cfg : ScraperConfig) (web : Web) (url2 : String)
    (s : ScraperState) (raw : String) (existing : WebsiteContent)
    (hm : s.cache.lookup url2 = none)
    (he : s.disk.lookup (getContentFilePath url2) = none)
    (hd : 0 < cfg.maxScrapingDepth) (hc : canScrapeMore cfg s = true)
    (ha : isUrlAllowed cfg url2 = true) (hw : web url2 = some raw)
    (hfind : findContentByHash s.disk (calculateContentHash raw) =
      some existing) :
    (∀ raw1 : String, raw1 = raw →
      calculateContentHash raw1 = calculateContentHash raw) ∧
    (ScrapeWebsite cfg web url2 s).1 =
      some { existing with lastUpdated := s.now } ∧
    (ScrapeWebsite cfg web url2 s).2.extractCount = s.extractCount ∧
    (ScrapeWebsite cfg web url2 s).2.disk =
      diskSet s.disk (getContentFilePath url2)
        ⟨url2, { existing with lastUpdated := s.now }⟩ ∧
    (ScrapeWebsite cfg web url2 s).2.scrapedUrls =
      s.scrapedUrls ++
        [{ url := url2, stype := "main", title := existing.title,
           success := true, errorMsg := "", scrapedAt := s.now,
           relevance := 0, contentType := "content_reused" }] := by
  unfold ScrapeWebsite
  cases h0 : cfg.refreshContent with
  | true =>
    rw [scrapeWebsiteWithDepth_refresh cfg web cfg.maxScrapingDepth url2 0 s h0]
    rw [scrapeMainTail_dedup cfg web cfg.maxScrapingDepth url2 0 s raw existing
      hm hd hc ha hw hfind]
    exact ⟨fun r hr => by rw [hr], rfl, rfl, rfl, rfl⟩
  | false =>
    rw [scrapeWebsiteWithDepth_diskNone cfg web cfg.maxScrapingDepth url2 0 s
      h0 he]
    rw [scrapeMainTail_dedup cfg web cfg.maxScrapingDepth url2 0
      (loadContentFromDisk s url2).2 raw existing hm hd hc ha hw hfind]
    exact ⟨fun r hr => by rw [hr], rfl, rfl, rfl, rfl⟩

theorem C8_content_dedup_witness :
    dupS1.cache.lookup "http://site-two.com" = none ∧
    dupS1.disk.lookup (getContentFilePath "http://site-two.com") = none ∧
    webDup "http://site-two.com" = some "t|Same\nx|identical body" ∧
    findContentByHash dupS1.disk
      (calculateContentHash "t|Same\nx|identical body") = some dupExisting ∧
    dupS1.extractCount = 1 ∧
    ((∀ raw1 : String, raw1 = "t|Same\nx|identical body" →
      calculateContentHash raw1 =
        calculateContentHash "t|Same\nx|identical body") ∧
    (ScrapeWebsite cfgD webDup "http://site-two.com" dupS1).1 =
      some { dupExisting with lastUpdated := dupS1.now } ∧
    (ScrapeWebsite cfgD webDup "http://site-two.com" dupS1).2.extractCount =
      dupS1.extractCount ∧
    (ScrapeWebsite cfgD webDup "http://site-two.com" dupS1).2.disk =
      diskSet dupS1.disk (getContentFilePath "http://site-two.com")
        ⟨"http://site-two.com", { dupExisting with lastUpdated := dupS1.now }⟩ ∧
    (ScrapeWebsite cfgD webDup "http://site-two.com" dupS1).2.scrapedUrls =
      dupS1.scrapedUrls ++
        [{ url := "http://site-two.com", stype := "main",
           title := dupExisting.title, success := true, errorMsg := "",
           scrapedAt := dupS1.now, relevance := 0,
           contentType := "content_reused" }]) :=
  ⟨by decide, by decide, by decide, by decide, by decide,
    C8_content_dedup cfgD webDup "http://site-two.com" dupS1
      "t|Same\nx|identical body" dupExisting (by decide) (by decide)
      (by decide) (by decide) (by decide) (by decide) (by decide)⟩

/-- C10: a linked-page call that passes the depth, budget, visited-set and
allow-list checks marks the URL visited, increments the page budget and logs
the fetch attempt *before* the HTTP GET; when the fetch then fails, none of
this is rolled back, and any later linked-page call for the same URL returns
immediately without a fetch. -/
theorem C10_mark_before_fetch (cfg : ScraperConfig) (web : Web) (url : String)
    (d : Nat) (s : ScraperState)
    (hd : d < cfg.maxScrapingDepth) (hc : canScrapeMore cfg s = true)
    (hv : isURLVisited s url = false) (ha : isUrlAllowed cfg url = true)
    (hw : web url = none) :
    ∃ s2, scrapePage cfg web url d "linked" s = (none, s2) ∧
      s2.visitedUrls = normalizeURL url :: s.visitedUrls ∧
      s2.scrapedPagesCount = s.scrapedPagesCount + 1 ∧
      s2.pageFetches = s.pageFetches ++ [url] ∧
      ∀ (web2 : Web) (d2 : Nat),
        scrapePage cfg web2 url d2 "linked" s2 = (none, s2) := by
  refine ⟨_, scrapePage_linked_fail cfg web url d s hd hc hv ha hw,
    rfl, rfl, rfl, ?_⟩
  intro web2 d2
  unfold scrapePage
  split
  · rfl
  · rw [if_pos ⟨rfl, by simp [isURLVisited, recordScrapedUrl]⟩]

theorem C10_mark_before_fetch_witness :
    1 < cfgD.maxScrapingDepth ∧ canScrapeMore cfgD stFresh = true ∧
    isURLVisited stFresh "https://x.com/u" = false ∧
    isUrlAllowed cfgD "https://x.com/u" = true ∧
    webChain "https://x.com/u" = none ∧
    (∃ s2, scrapePage cfgD webChain "https://x.com/u" 1 "linked" stFresh =
        (none, s2) ∧
      s2.visitedUrls = normalizeURL "https://x.com/u" :: stFresh.visitedUrls ∧
      s2.scrapedPagesCount = stFresh.scrapedPagesCount + 1 ∧
      s2.pageFetches = stFresh.pageFetches ++ ["https://x.com/u"] ∧
      ∀ (web2 : Web) (d2 : Nat),
        scrapePage cfgD web2 "https://x.com/u" d2 "linked" s2 = (none, s2)) :=
  ⟨by decide, by decide, by decide, by decide, by decide,
    C10_mark_before_fetch cfgD webChain "https://x.com/u" 1 stFresh (by decide)
      (by decide) (by decide) (by decide) (by decide)⟩

/-- C9: `determineContentType` implements exactly the ordered
first-match-wins rule table of the specification: github/gitlab → project,
then linkedin → professional, then medium/dev.to/"blog" → blog, then
stackoverflow → technical, else general. -/
theorem C9_content_type (url : String) :
    determineContentType url = determineContentTypeSpec url := by
  unfold determineContentType determineContentTypeSpec contentTypeRules
  simp only [firstMatchRule, List.any_cons, List.any_nil]
  cases h1 : goContains (goToLower url) "github.com" <;>
    cases h2 : goContains (goToLower url) "gitlab.com" <;>
    cases h3 : goContains (goToLower url) "linkedin.com" <;>
    cases h4 : goContains (goToLower url) "medium.com" <;>
    cases h5 : goContains (goToLower url) "dev.to" <;>
    cases h6 : goContains (goToLower url) "blog" <;>
    cases h7 : goContains (goToLower url) "stackoverflow.com" <;>
    simp [h1, h2, h3, h4, h5, h6, h7]

/-! ## C5 lemma stack -/

theorem charToNatOfNat (n : Nat) (h : n.isValidChar) :
    (Char.ofNat n).toNat = n := by
  simp only [Char.ofNat, h, dif_pos, Char.ofNatAux, Char.toNat, UInt32.ofNat']
  rfl

theorem asciiLowerChar_idem (c : Char) :
    asciiLowerChar (asciiLowerChar c) = asciiLowerChar c := by
  unfold asciiLowerChar
  by_cases h : 'A' ≤ c ∧ c ≤ 'Z'
  · rw [if_pos h, if_neg]
    intro hcon
    have hz : c.toNat ≤ 90 := h.2
    have ha : 65 ≤ c.toNat := h.1
    have hv : (c.toNat + 32).isValidChar := Or.inl (by omega)
    have ht : (Char.ofNat (c.toNat + 32)).toNat = c.toNat + 32 :=
      charToNatOfNat _ hv
    have h2 : (Char.ofNat (c.toNat + 32)).toNat ≤ 90 := hcon.2
    rw [ht] at h2
    omega
  · rw [if_neg h, if_neg h]

theorem list_map_self {α : Type} (f : α → α) (l : List α)
    (h : ∀ a ∈ l, f a = a) : l.map f = l := by
  induction l with
  | nil => rfl
  | cons c rest ih =>
    rw [List.map_cons, h c (List.mem_cons_self c rest),
      ih fun a ha => h a (List.mem_cons_of_mem c ha)]

theorem goToLower_idem (s : String) :
    goToLower (goToLower s) = goToLower s := by
  apply String.ext
  show (s.data.map asciiLowerChar).map asciiLowerChar = s.data.map asciiLowerChar
  refine list_map_self _ _ fun a ha => ?_
  obtain ⟨b, _, rfl⟩ := List.mem_map.mp ha
  exact asciiLowerChar_idem b

theorem splitFirst_not_mem (sep : Char) (l : List Char) (h : sep ∉ l) :
    splitFirst sep l = (l, none) := by
  induction l with
  | nil => rfl
  | cons c rest ih =>
    have hc : ¬(c = sep) := fun he => h (List.mem_cons.mpr (Or.inl he.symm))
    have h2 : sep ∉ rest := fun hm => h (List.mem_cons.mpr (Or.inr hm))
    simp only [splitFirst, if_neg hc, ih h2]

theorem splitAtSlash_no (l : List Char) (h : '/' ∉ l) :
    splitAtSlash l = (l, []) := by
  induction l with
  | nil => rfl
  | cons c rest ih =>
    have hc : ¬(c = '/') := fun he => h (List.mem_cons.mpr (Or.inl he.symm))
    have h2 : '/' ∉ rest := fun hm => h (List.mem_cons.mpr (Or.inr hm))
    simp only [splitAtSlash, if_neg hc, ih h2]

theorem splitAtSlash_append (a b : List Char) (h : '/' ∉ a) :
    splitAtSlash (a ++ '/' :: b) = (a, '/' :: b) := by
  induction a with
  | nil => simp [splitAtSlash]
  | cons c rest ih =>
    have hc : ¬(c = '/') := fun he => h (List.mem_cons.mpr (Or.inl he.symm))
    have h2 : '/' ∉ rest := fun hm => h (List.mem_cons.mpr (Or.inr hm))
    have ih2 : splitAtSlash (rest.append ('/' :: b)) = (rest, '/' :: b) := ih h2
    simp only [List.cons_append, splitAtSlash, if_neg hc, ih h2, ih2]

theorem lastIdxOf_not_mem (c : Char) (l : List Char) (h : c ∉ l) :
    lastIdxOf c l = none := by
  induction l with
  | nil => rfl
  | cons x rest ih =>
    have hx : ¬(x = c) := fun he => h (List.mem_cons.mpr (Or.inl he.symm))
    have h2 : c ∉ rest := fun hm => h (List.mem_cons.mpr (Or.inr hm))
    simp only [lastIdxOf, ih h2, if_neg hx]

theorem unescape_plain (mode : NetUrl.Mode) (l : List Char)
    (h : ∀ c ∈ l, ¬(c = '%') ∧ ¬(c = '+') ∧
      NetUrl.shouldEscape c mode = false) :
    NetUrl.unescape mode l = some l := by
  induction l with
  | nil => rfl
  | cons c rest ih =>
    obtain ⟨hp, hpl, hs⟩ := h c (List.mem_cons_self c rest)
    have ih2 := ih fun x hx => h x (List.mem_cons_of_mem c hx)
    have hs3 : ¬((mode = NetUrl.Mode.host ∨ mode = NetUrl.Mode.zone) ∧
        c.toNat < 128 ∧ NetUrl.shouldEscape c mode = true) := by
      intro hcon
      rw [hs] at hcon
      exact nomatch hcon.2.2
    unfold NetUrl.unescape
    rw [if_neg hp, if_neg hpl, if_neg hs3, ih2]

theorem escape_plain (mode : NetUrl.Mode) (l : List Char)
    (hm : ¬(mode = NetUrl.Mode.queryComponent))
    (h : ∀ c ∈ l, NetUrl.shouldEscape c mode = false) :
    NetUrl.escape l mode = l := by
  induction l with
  | nil => rfl
  | cons c rest ih =>
    have h1 := h c (List.mem_cons_self c rest)
    have ih2 := ih fun x hx => h x (List.mem_cons_of_mem c hx)
    have hsp : ¬(c = ' ' ∧ mode = NetUrl.Mode.queryComponent) :=
      fun hc => hm hc.2
    have hcond : ¬(NetUrl.shouldEscape c mode = true) := by
      rw [h1]
      exact fun hx => nomatch hx
    unfold NetUrl.escape
    rw [List.flatMap_cons, if_neg hsp, if_neg hcond, List.singleton_append]
    exact congrArg (List.cons c) ih2

theorem hostChars_facts : ∀ c ∈ simpleHostChars,
    asciiLowerChar c = c ∧ ¬(c = '%') ∧ ¬(c = '+') ∧
      NetUrl.shouldEscape c NetUrl.Mode.host = false ∧
      NetUrl.isCtlChar c = false := by decide

theorem pathChars_facts : ∀ c ∈ simplePathChars,
    asciiLowerChar c = c ∧ ¬(c = '%') ∧ ¬(c = '+') ∧
      NetUrl.shouldEscape c NetUrl.Mode.path = false ∧
      NetUrl.isCtlChar c = false := by decide

theorem simple_rest_no_query (host path : String)
    (hhost : ∀ c ∈ host.data, c ∈ simpleHostChars)
    (hpath : ∀ c ∈ path.data, c ∈ simplePathChars) :
    '?' ∉ ('/' :: '/' :: (host.data ++ path.data)) := by
  intro hm
  simp only [List.mem_cons, List.mem_append] at hm
  rcases hm with h | h | h | h
  · exact absurd h (by decide)
  · exact absurd h (by decide)
  · exact absurd (hhost _ h) (by decide)
  · exact absurd (hpath _ h) (by decide)

theorem host_no_special (host : String)
    (hhost : ∀ c ∈ host.data, c ∈ simpleHostChars) :
    '@' ∉ host.data ∧ ':' ∉ host.data ∧ '/' ∉ host.data ∧
      ¬(host.data.head? = some '[') := by
  refine ⟨fun h => absurd (hhost _ h) (by decide),
    fun h => absurd (hhost _ h) (by decide),
    fun h => absurd (hhost _ h) (by decide), fun h => ?_⟩
  have hb : '[' ∈ host.data := by
    cases hd : host.data with
    | nil => rw [hd] at h; exact nomatch h
    | cons x xs =>
      rw [hd] at h
      rw [List.head?_cons] at h
      injection h with h1
      rw [h1]
      exact List.mem_cons_self _ _
  exact absurd (hhost _ hb) (by decide)

theorem unescape_host_plain (host : String)
    (hhost : ∀ c ∈ host.data, c ∈ simpleHostChars) :
    NetUrl.unescape NetUrl.Mode.host host.data = some host.data :=
  unescape_plain _ _ fun c hc =>
    ⟨(hostChars_facts c (hhost c hc)).2.1,
      (hostChars_facts c (hhost c hc)).2.2.1,
      (hostChars_facts c (hhost c hc)).2.2.2.1⟩

theorem unescape_path_plain (path : String)
    (hpath : ∀ c ∈ path.data, c ∈ simplePathChars) :
    NetUrl.unescape NetUrl.Mode.path path.data = some path.data :=
  unescape_plain _ _ fun c hc =>
    ⟨(pathChars_facts c (hpath c hc)).2.1,
      (pathChars_facts c (hpath c hc)).2.2.1,
      (pathChars_facts c (hpath c hc)).2.2.2.1⟩

theorem escape_path_plain (path : String)
    (hpath : ∀ c ∈ path.data, c ∈ simplePathChars) :
    NetUrl.escape path.data NetUrl.Mode.path = path.data :=
  escape_plain _ _ (by decide) fun c hc =>
    (pathChars_facts c (hpath c hc)).2.2.2.1

theorem escape_host_plain (host : String)
    (hhost : ∀ c ∈ host.data, c ∈ simpleHostChars) :
    NetUrl.escape host.data NetUrl.Mode.host = host.data :=
  escape_plain _ _ (by decide) fun c hc =>
    (hostChars_facts c (hhost c hc)).2.2.2.1

theorem parseHost_simple (host : String)
    (hhost : ∀ c ∈ host.data, c ∈ simpleHostChars) :
    NetUrl.parseHost host.data = some host.data := by
  obtain ⟨-, hc, -, hb⟩ := host_no_special host hhost
  unfold NetUrl.parseHost
  rw [if_neg hb, lastIdxOf_not_mem _ _ hc]
  exact unescape_host_plain host hhost

theorem parseAuthority_simple (host : String)
    (hhost : ∀ c ∈ host.data, c ∈ simpleHostChars) :
    NetUrl.parseAuthority host.data = some (none, host.data) := by
  obtain ⟨ha, -, -, -⟩ := host_no_special host hhost
  unfold NetUrl.parseAuthority
  rw [lastIdxOf_not_mem _ _ ha, parseHost_simple host hhost]

theorem setPath_simple (path : String)
    (hpath : ∀ c ∈ path.data, c ∈ simplePathChars) :
    NetUrl.setPath path.data = some (path.data, []) := by
  unfold NetUrl.setPath
  rw [unescape_path_plain path hpath]
  dsimp only
  rw [if_pos (escape_path_plain path hpath)]

theorem splitAtSlash_simple (host path : String)
    (hhost : ∀ c ∈ host.data, c ∈ simpleHostChars)
    (hp0 : path = "" ∨ path.data.head? = some '/') :
    splitAtSlash (host.data ++ path.data) = (host.data, path.data) := by
  obtain ⟨-, -, hs, -⟩ := host_no_special host hhost
  rcases hp0 with rfl | hh
  · rw [show ("" : String).data = [] from rfl, List.append_nil]
    exact splitAtSlash_no _ hs
  · cases hd : path.data with
    | nil => rw [hd] at hh; exact nomatch hh
    | cons p0 pt =>
      rw [hd] at hh
      rw [List.head?_cons] at hh
      injection hh with h1
      rw [h1]
      exact splitAtSlash_append _ _ hs

theorem parseMain_simple_core (sch host path : String)
    (hgs : NetUrl.getScheme (sch ++ "://" ++ host ++ path).data =
      some (sch.data, '/' :: '/' :: (host.data ++ path.data)))
    (hlow : sch.data.map asciiLowerChar = sch.data)
    (hsne : ¬(sch = ""))
    (hctl : ¬((sch ++ "://" ++ host ++ path).data.any NetUrl.isCtlChar = true))
    (hstar : ¬((sch ++ "://" ++ host ++ path).data = ['*']))
    (hhost : ∀ c ∈ host.data, c ∈ simpleHostChars)
    (hpath : ∀ c ∈ path.data, c ∈ simplePathChars)
    (hp0 : path = "" ∨ path.data.head? = some '/') :
    NetUrl.parseMain (sch ++ "://" ++ host ++ path).data =
      some { scheme := sch, host := host, path := path } := by
  have hQ := simple_rest_no_query host path hhost hpath
  have hfq : ¬(('/' :: '/' :: (host.data ++ path.data)).getLast? = some '?' ∧
      ¬(('/' :: '/' :: (host.data ++ path.data)).dropLast.contains '?' = true)) :=
    fun hcon => hQ (List.mem_of_mem_getLast? hcon.1)
  unfold NetUrl.parseMain
  rw [if_neg hctl, if_neg hstar, hgs]
  dsimp only
  rw [hlow, if_neg hfq, splitFirst_not_mem '?' _ hQ]
  dsimp only
  rw [show ({ data := sch.data } : String) = sch from rfl]
  rw [if_neg (fun hcon => hcon.1 rfl), if_neg (fun hcon => hcon.1 rfl)]
  have hauth : (sch ≠ "" ∨
      ¬List.take 3 ('/' :: '/' :: (host.data ++ path.data)) = ['/', '/', '/']) ∧
      List.take 2 ('/' :: '/' :: (host.data ++ path.data)) = ['/', '/'] :=
    ⟨Or.inl hsne, rfl⟩
  rw [if_pos hauth, if_neg hfq]
  simp only [List.drop_succ_cons, List.drop_zero, Option.getD_none]
  rw [splitAtSlash_simple host path hhost hp0]
  dsimp only
  rw [parseAuthority_simple host hhost]
  dsimp only
  rw [setPath_simple path hpath]
  dsimp only
  rw [decide_eq_false hfq]

theorem parse_simple (sch host path : String)
    (hsch : sch = "http" ∨ sch = "https")
    (hhost : ∀ c ∈ host.data, c ∈ simpleHostChars)
    (hpath : ∀ c ∈ path.data, c ∈ simplePathChars)
    (hp0 : path = "" ∨ path.data.head? = some '/') :
    NetUrl.parse (sch ++ "://" ++ host ++ path).data =
      some { scheme := sch, host := host, path := path } := by
  have hschC : ∀ c ∈ sch.data, c ∈ simpleHostChars := by
    rcases hsch with rfl | rfl <;> decide
  have ud : (sch ++ "://" ++ host ++ path).data
      = sch.data ++ (':' :: '/' :: '/' :: (host.data ++ path.data)) := by
    show ((sch.data ++ [':', '/', '/']) ++ host.data) ++ path.data = _
    simp [List.append_assoc]
  have hctl : ¬((sch ++ "://" ++ host ++ path).data.any NetUrl.isCtlChar
      = true) := by
    intro hc
    rw [ud] at hc
    obtain ⟨c, hcm, hcp⟩ := List.any_eq_true.mp hc
    simp only [List.mem_append, List.mem_cons] at hcm
    rcases hcm with hm | hm | hm | hm | hm | hm
    · rw [(hostChars_facts c (hschC c hm)).2.2.2.2] at hcp
      exact nomatch hcp
    · subst hm; exact absurd hcp (by decide)
    · subst hm; exact absurd hcp (by decide)
    · subst hm; exact absurd hcp (by decide)
    · rw [(hostChars_facts c (hhost c hm)).2.2.2.2] at hcp
      exact nomatch hcp
    · rw [(pathChars_facts c (hpath c hm)).2.2.2.2] at hcp
      exact nomatch hcp
  have hstar : ¬((sch ++ "://" ++ host ++ path).data = ['*']) := by
    intro hc
    rw [ud] at hc
    have hlen := congrArg List.length hc
    simp only [List.length_append, List.length_cons, List.length_nil] at hlen
    omega
  have hs : '#' ∉ (sch ++ "://" ++ host ++ path).data := by
    intro hm
    rw [ud] at hm
    simp only [List.mem_append, List.mem_cons] at hm
    rcases hm with hm | hm | hm | hm | hm | hm
    · exact absurd (hschC _ hm) (by decide)
    · exact absurd hm (by decide)
    · exact absurd hm (by decide)
    · exact absurd hm (by decide)
    · exact absurd (hhost _ hm) (by decide)
    · exact absurd (hpath _ hm) (by decide)
  have hgs : NetUrl.getScheme (sch ++ "://" ++ host ++ path).data =
      some (sch.data, '/' :: '/' :: (host.data ++ path.data)) := by
    rcases hsch with rfl | rfl <;> rfl
  have hlow : sch.data.map asciiLowerChar = sch.data := by
    rcases hsch with rfl | rfl <;> decide
  have hsne : ¬(sch = "") := by
    rcases hsch with rfl | rfl <;> decide
  unfold NetUrl.parse
  dsimp only
  rw [splitFirst_not_mem '#' _ hs]
  dsimp only
  rw [parseMain_simple_core sch host path hgs hlow hsne hctl hstar hhost
    hpath hp0]

theorem urlString_simple (sch host path : String)
    (hsne : ¬(sch = "")) (hne : ¬(host = ""))
    (hhost : ∀ c ∈ host.data, c ∈ simpleHostChars)
    (hpath : ∀ c ∈ path.data, c ∈ simplePathChars)
    (hp0 : path = "" ∨ path.data.head? = some '/') :
    NetUrl.urlString { scheme := sch, host := host, path := path } =
      (sch ++ "://" ++ host ++ path).data := by
  have hstar : ¬(path = "*") := by
    rcases hp0 with rfl | hh
    · decide
    · intro hcon
      rw [hcon] at hh
      exact absurd hh (by decide)
  have hep : NetUrl.escapedPath
      { scheme := sch, host := host, path := path } = path.data := by
    unfold NetUrl.escapedPath
    rw [if_neg (fun hcon => hcon.1 rfl)]
    dsimp only
    rw [if_neg hstar, escape_path_plain path hpath]
  unfold NetUrl.urlString
  dsimp only
  rw [if_pos hsne, if_neg (fun hcon : ¬(("" : String) = "") => hcon rfl),
    if_pos (Or.inl hsne), if_neg (fun hcon => nomatch hcon.1),
    if_pos (Or.inl hne), if_pos hne, escape_host_plain host hhost, hep]
  rw [if_neg (fun hcon : ¬(("" : String) = "") => hcon rfl)]
  have hslash : ¬(path.data ≠ [] ∧ ¬path.data.head? = some '/' ∧
      ¬(host = "")) := by
    rcases hp0 with rfl | hh
    · exact fun hcon => hcon.1 rfl
    · exact fun hcon => hcon.2.1 hh
  rw [if_neg hslash]
  have hdot : ¬(sch.data ++ [':'] = [] ∧ ['/', '/'] ++ [] ++ host.data = [] ∧
      ([] : List Char) = [] ∧ (splitFirst '/' path.data).1.contains ':'
        = true) := by
    intro hcon
    have h2 := congrArg List.length hcon.1
    simp only [List.length_append, List.length_cons, List.length_nil] at h2
    omega
  rw [if_neg hdot,
    if_neg (fun hcon => hcon.elim (fun h2 => nomatch h2) (fun h2 => h2 rfl))]
  have ud : (sch ++ "://" ++ host ++ path).data
      = sch.data ++ (':' :: '/' :: '/' :: (host.data ++ path.data)) := by
    show ((sch.data ++ [':', '/', '/']) ++ host.data) ++ path.data = _
    simp [List.append_assoc]
  rw [ud]
  simp [List.append_assoc]

theorem normalizeURL_simple_fix (u : String) (h : SimpleURL u) :
    normalizeURL u = u := by
  obtain ⟨sch, host, path, hsch, rfl, hne, hhost, hpath, hp0s⟩ := h
  have hp0 : path = "" ∨ path.data.head? = some '/' :=
    hp0s.imp (fun h2 => h2) (fun h2 => h2.1)
  have hsne : ¬(sch = "") := by rcases hsch with rfl | rfl <;> decide
  have hschC : ∀ c ∈ sch.data, c ∈ simpleHostChars := by
    rcases hsch with rfl | rfl <;> decide
  have ud : (sch ++ "://" ++ host ++ path).data
      = sch.data ++ (':' :: '/' :: '/' :: (host.data ++ path.data)) := by
    show ((sch.data ++ [':', '/', '/']) ++ host.data) ++ path.data = _
    simp [List.append_assoc]
  have hlowfix : goToLower (sch ++ "://" ++ host ++ path)
      = sch ++ "://" ++ host ++ path := by
    apply String.ext
    show List.map asciiLowerChar (sch ++ "://" ++ host ++ path).data
      = (sch ++ "://" ++ host ++ path).data
    rw [ud]
    apply list_map_self
    intro a ha
    simp only [List.mem_append, List.mem_cons] at ha
    rcases ha with hm | hm | hm | hm | hm | hm
    · exact (hostChars_facts a (hschC a hm)).1
    · subst hm; decide
    · subst hm; decide
    · subst hm; decide
    · exact (hostChars_facts a (hhost a hm)).1
    · exact (pathChars_facts a (hpath a hm)).1
  have htrail : ¬(path.length > 1 ∧ path.data.getLast? = some '/') := by
    rcases hp0s with rfl | ⟨hh, hor⟩
    · intro hcon; exact absurd hcon.1 (by decide)
    · rcases hor with rfl | hl
      · intro hcon; exact absurd hcon.1 (by decide)
      · exact fun hcon => hl hcon.2
  have h1 : normalizeURL (sch ++ "://" ++ host ++ path) =
      ⟨NetUrl.urlString { scheme := sch, host := host, path := path }⟩ := by
    unfold normalizeURL
    dsimp only
    rw [hlowfix, parse_simple sch host path hsch hhost hpath hp0]
    dsimp only
    rw [if_neg htrail]
    rfl
  rw [h1]
  apply String.ext
  show NetUrl.urlString { scheme := sch, host := host, path := path }
    = (sch ++ "://" ++ host ++ path).data
  exact urlString_simple sch host path hsne hne hhost hpath hp0

/-- C5 (corrected): `normalizeURL` is NOT idempotent on all inputs (see the
counterexample below, where the second pass changes the case of a
percent-escape); the amended claim proved here is idempotence on the class
`SimpleURL` of plain lower-case `http(s)` URLs — where one application is
already the identity — and on every input that fails to parse, where the
fallback (lower-casing) is idempotent. -/
theorem C5_idempotent_on_parsables (u : String)
    (h : SimpleURL u ∨ NetUrl.parse (goToLower u).data = none) :
    normalizeURL (normalizeURL u) = normalizeURL u := by
  rcases h with h | h
  · rw [normalizeURL_simple_fix u h, normalizeURL_simple_fix u h]
  · have h1 : normalizeURL u = goToLower u := by
      unfold normalizeURL
      dsimp only
      rw [h]
    have h2 : normalizeURL (goToLower u) = goToLower u := by
      unfold normalizeURL
      dsimp only
      rw [goToLower_idem, h]
    rw [h1, h2]

set_option maxHeartbeats 2000000 in
/-- C5 counterexample: the spec says `normalize(normalize(x)) == normalize(x)`
for every URL, but `normalizeURL "http://a/<"` yields `"http://a/%3C"`
(upper-case escape kept via `RawPath`), and a second application lower-cases
the hex digits to `"http://a/%3c"`, so idempotence fails. -/
theorem C5_escape_case_counterexample :
    normalizeURL (normalizeURL "http://a/<") ≠ normalizeURL "http://a/<" := by
  decide

theorem C5_idempotent_on_parsables_witness :
    (SimpleURL "https://example.com/about" ∨
      NetUrl.parse (goToLower "https://example.com/about").data = none) ∧
    normalizeURL (normalizeURL "https://example.com/about") =
      normalizeURL "https://example.com/about" :=
  have hs : SimpleURL "https://example.com/about" :=
    ⟨"https", "example.com", "/about", Or.inr rfl, by decide, by decide,
      by decide, by decide, Or.inr ⟨by decide, Or.inr (by decide)⟩⟩
  ⟨Or.inl hs, C5_idempotent_on_parsables _ (Or.inl hs)⟩
